import Mathlib

/-!
# The tab store of `js/tabState.js`

A shallow embedding of the tab collection operations (`tabPrototype`), the task
operations (`tasks`) and the predicate `isEmpty` of `src/js/tabState.js`,
followed by theorems about them.

JavaScript values are modelled by `Val`; a tab is a JavaScript object, modelled
as the ordered list of its own properties (`Obj`); the tab array `this` is the
list of its tabs.  Operations that mutate the array return the array they leave
behind together with what the call returned or threw.
-/

set_option autoImplicit false

/-! ## JavaScript values -/

/-- The JavaScript values that occur as tab fields and as ids.  Numbers are the
integers (non-integral numbers, `NaN` and the infinities are not modelled); a
`num n` is a JavaScript value when `n` is a double, as every integer up to `2 ^ 53`
in absolute value is.  Values that are themselves objects are not modelled. -/
inductive Val where
  | undefined
  | null
  | bool (b : Bool)
  | num (n : Int)
  | str (s : String)
  deriving DecidableEq, Repr, Inhabited

/-- JavaScript `ToBoolean`: `undefined`, `null`, `false`, `0` and `""` are falsy. -/
def truthy : Val → Bool
  | .undefined => false
  | .null => false
  | .bool b => b
  | .num n => decide (n ≠ 0)
  | .str s => decide (s ≠ "")

/-- The JavaScript expression `a || b`. -/
def orElse (a b : Val) : Val := if truthy a then a else b

/-- White space that `ToNumber` strips from both ends of a string. -/
def isWhiteSpace (c : Char) : Bool :=
  c.toNat = 9 || c.toNat = 10 || c.toNat = 11 || c.toNat = 12 || c.toNat = 13
    || c.toNat = 32 || c.toNat = 160 || c.toNat = 0x1680
    || (0x2000 ≤ c.toNat && c.toNat ≤ 0x200A)
    || c.toNat = 0x2028 || c.toNat = 0x2029 || c.toNat = 0x202F
    || c.toNat = 0x205F || c.toNat = 0x3000 || c.toNat = 0xFEFF

/-- The value of a digit in the given base: `0`-`9`, `a`-`f`, `A`-`F`, when it is
below the base. -/
def digitOf (base : Nat) (c : Char) : Option Nat :=
  let v : Option Nat :=
    if 48 ≤ c.toNat ∧ c.toNat ≤ 57 then some (c.toNat - 48)
    else if 97 ≤ c.toNat ∧ c.toNat ≤ 102 then some (c.toNat - 87)
    else if 65 ≤ c.toNat ∧ c.toNat ≤ 70 then some (c.toNat - 55)
    else none
  v.bind (fun d => if d < base then some d else none)

/-- The number written by a non-empty list of digits of the given base. -/
def digitsInBase (base : Nat) (cs : List Char) : Option Nat :=
  if cs = [] then none
  else cs.foldl (fun acc c => acc.bind (fun a => (digitOf base c).map (fun d => base * a + d)))
    (some 0)

/-- The quotient `n / d` rounded to the nearest integer, ties to even. -/
def roundHalfEven (n d : Nat) : Nat :=
  if 2 * (n % d) > d ∨ (2 * (n % d) = d ∧ (n / d) % 2 = 1) then n / d + 1 else n / d

/-- The loop that counts the halvings of `n` down to 1. -/
def log2Loop : Nat → Nat → Nat
  | 0, _ => 0
  | fuel + 1, n => if n < 2 then 0 else log2Loop fuel (n / 2) + 1

/-- The integer part of the binary logarithm of `n` (`0` for `n = 0`). -/
def log2Floor (n : Nat) : Nat := log2Loop n n

/-- The integer part of the binary logarithm of `a / b`, for positive `a`, `b`. -/
def floorLog2Ratio (a b : Nat) : Int :=
  let l : Int := (log2Floor a : Int) - (log2Floor b : Int)
  if (if 0 ≤ l then b * 2 ^ l.toNat ≤ a else b ≤ a * 2 ^ (-l).toNat) then l else l - 1

/-- The Number value of the non-negative rational `a / b`: the IEEE 754 double
nearest to it (53 significant bits, least exponent `-1074`, ties to even), given
when it is a finite integer; `none` when it is not an integer or is `Infinity`. -/
def numberValueOfRatio (a b : Nat) : Option Nat :=
  if a = 0 then some 0
  else
    let s : Int := max (floorLog2Ratio a b - 52) (-1074)
    if 0 ≤ s then
      let r := roundHalfEven a (b * 2 ^ s.toNat) * 2 ^ s.toNat
      if log2Floor r < 1024 then some r else none
    else
      let m := roundHalfEven (a * 2 ^ (-s).toNat) b
      if m % 2 ^ (-s).toNat = 0 then some (m / 2 ^ (-s).toNat) else none

/-- The exponent after `e` or `E`: an optionally signed run of decimal digits. -/
def parseExponent (cs : List Char) : Option Int :=
  match cs with
  | [] => none
  | c :: rest =>
    if c = '+' then (digitsInBase 10 rest).map Int.ofNat
    else if c = '-' then (digitsInBase 10 rest).map (fun n => - Int.ofNat n)
    else (digitsInBase 10 (c :: rest)).map Int.ofNat

/-- An unsigned decimal literal `digits`, `digits.`, `digits.digits` or `.digits`,
with an optional exponent part: its digits as a number `m` and the decimal
exponent `e`, the value being `m * 10 ^ e`. -/
def parseUnsignedDecimal (cs : List Char) : Option (Nat × Int) :=
  let intPart := cs.takeWhile Char.isDigit
  let afterInt := cs.dropWhile Char.isDigit
  let fracPart := match afterInt with
    | c :: r => if c = '.' then r.takeWhile Char.isDigit else []
    | [] => []
  let afterFrac := match afterInt with
    | c :: r => if c = '.' then r.dropWhile Char.isDigit else afterInt
    | [] => []
  if intPart = [] ∧ fracPart = [] then none
  else
    let mantissa := (intPart ++ fracPart).foldl (fun acc c => 10 * acc + (c.toNat - 48)) 0
    match afterFrac with
    | [] => some (mantissa, - Int.ofNat fracPart.length)
    | c :: r =>
      if c = 'e' ∨ c = 'E' then
        (parseExponent r).map (fun e => (mantissa, e - Int.ofNat fracPart.length))
      else none

/-- The Number value of an unsigned decimal literal, when it is a finite integer
(the literal `Infinity` is not, and gives `none`). -/
def unsignedDecimalValue (cs : List Char) : Option Nat :=
  (parseUnsignedDecimal cs).bind (fun p =>
    if 0 ≤ p.2 then numberValueOfRatio (p.1 * 10 ^ p.2.toNat) 1
    else numberValueOfRatio p.1 (10 ^ (-p.2).toNat))

/-- The Number value of a literal `0x...`, `0o...` or `0b...` (either case). -/
def nonDecimalValue (cs : List Char) : Option Nat :=
  match cs with
  | z :: x :: rest =>
    if z = '0' then
      if x = 'x' ∨ x = 'X' then (digitsInBase 16 rest).bind (fun n => numberValueOfRatio n 1)
      else if x = 'o' ∨ x = 'O' then (digitsInBase 8 rest).bind (fun n => numberValueOfRatio n 1)
      else if x = 'b' ∨ x = 'B' then (digitsInBase 2 rest).bind (fun n => numberValueOfRatio n 1)
      else none
    else none
  | _ => none

/-- JavaScript `ToNumber` on a string (`StringToNumber`), as far as the result is
a finite integer: surrounding white space is dropped; the empty string is `0`; a
signed or unsigned decimal literal, with fraction and exponent, and an unsigned
hexadecimal, octal or binary literal give their Number value, the nearest double.
The result is `none` when the Number value is `NaN`, an infinity or not an
integer; none of these is `==` to an integer. -/
def stringToNumber (s : String) : Option Int :=
  let cs := ((s.toList.dropWhile isWhiteSpace).reverse.dropWhile isWhiteSpace).reverse
  match cs with
  | [] => some 0
  | c :: rest =>
    if c = '+' then (unsignedDecimalValue rest).map Int.ofNat
    else if c = '-' then (unsignedDecimalValue rest).map (fun n => - Int.ofNat n)
    else
      match nonDecimalValue (c :: rest) with
      | some n => some (Int.ofNat n)
      | none => (unsignedDecimalValue (c :: rest)).map Int.ofNat

/-- JavaScript `ToNumber` on a boolean. -/
def boolToNumber (b : Bool) : Int := if b then 1 else 0

/-- The JavaScript loose equality `a == b`. -/
def looseEq : Val → Val → Bool
  | .undefined, .undefined => true
  | .undefined, .null => true
  | .null, .undefined => true
  | .null, .null => true
  | .undefined, _ => false
  | .null, _ => false
  | _, .undefined => false
  | _, .null => false
  | .num a, .num b => decide (a = b)
  | .str a, .str b => decide (a = b)
  | .bool a, .bool b => decide (a = b)
  | .num a, .str s => decide (stringToNumber s = some a)
  | .str s, .num a => decide (stringToNumber s = some a)
  | .bool a, .num b => decide (boolToNumber a = b)
  | .num a, .bool b => decide (a = boolToNumber b)
  | .bool a, .str s => decide (stringToNumber s = some (boolToNumber a))
  | .str s, .bool a => decide (stringToNumber s = some (boolToNumber a))

/-- The JavaScript strict equality `a === b` (used by `Array.prototype.indexOf`). -/
def strictEq (a b : Val) : Bool := decide (a = b)

/-! ## Objects -/

/-- A JavaScript object: its own properties, in enumeration order. -/
abbrev Obj := List (String × Val)

/-- Property read `o[k]`: the value of the first property named `k`, or
`undefined` when there is none. -/
def getProp : Obj → String → Val
  | [], _ => .undefined
  | (k', v) :: rest, k => if k' = k then v else getProp rest k

/-- Property write `o[k] = v`: overwrites the property in place when it exists,
otherwise adds it at the end. -/
def setProp : Obj → String → Val → Obj
  | [], k, v => [(k, v)]
  | (k', v') :: rest, k, v => if k' = k then (k, v) :: rest else (k', v') :: setProp rest k v

/-- The names of the own properties of an object. -/
def ownKeys (o : Obj) : List String := o.map Prod.fst

/-- The copy `JSON.parse(JSON.stringify(o))`: every own property is read and
written to the new object, except that properties whose value is `undefined`
are left out. -/
def jsonCopy (o : Obj) : Obj :=
  (ownKeys o).filterMap (fun k =>
    if getProp o k = .undefined then none else some (k, getProp o k))

/-! ## Errors and outcomes -/

/-- The exceptions the operations throw. -/
inductive Err where
  | referenceError (message : String)
  | typeError
  deriving DecidableEq, Repr

/-- What a call leaves behind: the tab array after the call, and the value the
call returned or the exception it threw. -/
structure Outcome (α : Type) where
  tabs : List Obj
  result : Except Err α

/-- The result of `tabPrototype.get`. -/
inductive GetResult where
  | all (tabsToReturn : List Obj)
  | tab (t : Obj)
  | undefined
  deriving DecidableEq, Repr

/-- Truthiness of what `get` returned: arrays and objects are truthy. -/
def GetResult.truthy : GetResult → Bool
  | .all _ => true
  | .tab _ => true
  | .undefined => false

/-- The flag `selected` of a tab, read the way the code reads it
(`if (this[i].selected)`). -/
def isSelected (t : Obj) : Bool := truthy (getProp t "selected")

/-- Whether the tab carries the id, compared as the code does (`this[i].id == id`). -/
def hasId (id : Val) (t : Obj) : Bool := looseEq (getProp t "id") id

namespace tabPrototype

/-- The loop `for (i ...) if (this[i].id == id) return i` started at index `i`. -/
def firstIndexFrom (id : Val) : List Obj → Nat → Option Nat
  | [], _ => none
  | t :: rest, i => if hasId id t then some i else firstIndexFrom id rest (i + 1)

/-- The loop of `update`, `if (this[i].id == id) index = i`, started at `i`. -/
def lastIndexFrom (id : Val) : List Obj → Nat → Int → Int
  | [], _, index => index
  | t :: rest, i, index =>
    lastIndexFrom id rest (i + 1) (if hasId id t then (i : Int) else index)

/-- The tab `newTab` that `add` builds from its argument. -/
def newTab (tab : Obj) (tabId : Val) (now : Int) : Obj :=
  [ ("url", orElse (getProp tab "url") (.str "")),
    ("title", orElse (getProp tab "title") (.str "")),
    ("id", tabId),
    ("lastActivity", orElse (getProp tab "lastActivity") (.num now)),
    ("secure", getProp tab "secure"),
    ("private", orElse (getProp tab "private") (.bool false)),
    ("readerable", orElse (getProp tab "readerable") (.bool false)),
    ("backgroundColor", getProp tab "backgroundColor"),
    ("foregroundColor", getProp tab "foregroundColor"),
    ("selected", orElse (getProp tab "selected") (.bool false)) ]

/-- The call `this.splice(index, 0, item)`: a negative index counts from the end
of the array, and the start position is clamped to the array. -/
def spliceInsert (this : List Obj) (index : Int) (item : Obj) : List Obj :=
  let start : Nat :=
    if index < 0 then (((this.length : Int) + index).toNat) else min index.toNat this.length
  this.take start ++ item :: this.drop start

/-- Function `add(tab, index)`.  `tab` is `none` when the argument is missing,
`index` likewise; `now` is the value of `Date.now()` and `random` the value of
`Math.round(Math.random() * 100000000000000000)`. -/
def add (this : List Obj) (tab : Option Obj) (index : Option Int)
    (now : Int) (random : Nat) : Outcome Val :=
  let tab : Obj := match tab with
    | some t => t
    | none => []
  let tabId := orElse (getProp tab "id") (.num random)
  let newTab := newTab tab tabId now
  match index with
  | some i =>
    if i ≠ 0 then ⟨spliceInsert this i newTab, .ok tabId⟩
    else ⟨this ++ [newTab], .ok tabId⟩
  | none => ⟨this ++ [newTab], .ok tabId⟩

/-- Function `get(id)`. -/
def get (this : List Obj) (id : Val) : GetResult :=
  if !truthy id then
    .all (this.map jsonCopy)
  else
    match this.find? (hasId id) with
    | some t => .tab t
    | none => .undefined

/-- Function `getIndex(id)`. -/
def getIndex (this : List Obj) (id : Val) : Int :=
  match firstIndexFrom id this 0 with
  | some i => (i : Int)
  | none => -1

/-- The loop `for (var key in data)` of `update`, run on the tab array `this`
with the position `index` found before: a value that is `== undefined` throws,
a write to `this[-1]` (no tab found) is a write to a property of `undefined`
and throws a `TypeError`, any other step writes the key. -/
def updateLoop (index : Int) : List Obj → List (String × Val) → Outcome Unit
  | this, [] => ⟨this, .ok ()⟩
  | this, (key, value) :: rest =>
    if looseEq value .undefined then
      ⟨this, .error (.referenceError ("Key " ++ key ++ " is undefined."))⟩
    else if index < 0 then
      ⟨this, .error .typeError⟩
    else
      updateLoop index (this.modify (fun t => setProp t key value) index.toNat) rest

/-- Function `update(id, data)`. -/
def update (this : List Obj) (id : Val) (data : Obj) : Outcome Unit :=
  if !(get this id).truthy then
    ⟨this, .error (.referenceError "Attempted to update a tab that does not exist.")⟩
  else
    let index := lastIndexFrom id this 0 (-1)
    updateLoop index this data

/-- Function `destroy(id)`: returns the index as a number, or `false`. -/
def destroy (this : List Obj) (id : Val) : Outcome Val :=
  match firstIndexFrom id this 0 with
  | some i => ⟨this.eraseIdx i, .ok (.num i)⟩
  | none => ⟨this, .ok (.bool false)⟩

/-- Function `getSelected()`. -/
def getSelected (this : List Obj) : Val :=
  match this.find? isSelected with
  | some t => getProp t "id"
  | none => .null

/-- Function `setSelected(id)`. -/
def setSelected (this : List Obj) (id : Val) : Outcome Unit :=
  if !(get this id).truthy then
    ⟨this, .error (.referenceError "Attempted to select a tab that does not exist.")⟩
  else
    ⟨this.map (fun t =>
        if hasId id t then setProp t "selected" (.bool true)
        else setProp t "selected" (.bool false)), .ok ()⟩

/-- Function `count()`. -/
def count (this : List Obj) : Nat := this.length

/-- The call `newOrder.indexOf(x)`, started at position `i`: the first position
whose entry is `=== x`, or `-1`. -/
def indexOfFrom (x : Val) : List Val → Nat → Int
  | [], _ => -1
  | y :: rest, i => if strictEq y x then (i : Int) else indexOfFrom x rest (i + 1)

/-- The comparator of `reorder`, `newOrder.indexOf(a.id) - newOrder.indexOf(b.id)`. -/
def compareOrder (newOrder : List Val) (a b : Obj) : Int :=
  indexOfFrom (getProp a "id") newOrder 0 - indexOfFrom (getProp b "id") newOrder 0

/-- Function `reorder(newOrder)`: `this.sort(comparator)`, a stable sort, in
which `a` stays before `b` unless the comparator is positive on `(a, b)`. -/
def reorder (this : List Obj) (newOrder : List Val) : List Obj :=
  this.insertionSort (fun a b => compareOrder newOrder a b ≤ 0)

end tabPrototype

/-! ## Properties of tab lists -/

/-- No two tabs of the list have ids that are `==`.  This is more than the ids
being pairwise different: the ids `1` and `"1"` are different and `==`. -/
def looselyDistinctIds (this : List Obj) : Prop :=
  this.Pairwise (fun a b => looseEq (getProp a "id") (getProp b "id") = false)

instance (this : List Obj) : Decidable (looselyDistinctIds this) := by
  unfold looselyDistinctIds; infer_instance

/-- Some tab of the list carries exactly the id `id`. -/
def carriesId (this : List Obj) (id : Val) : Prop :=
  ∃ t ∈ this, getProp t "id" = id

instance (this : List Obj) (id : Val) : Decidable (carriesId this id) := by
  unfold carriesId; infer_instance

/-- The number of tabs whose flag `selected` is set. -/
def selectedCount (this : List Obj) : Nat := this.countP isSelected

/-- At most one tab of the list is selected. -/
def atMostOneSelected (this : List Obj) : Prop := selectedCount this ≤ 1

instance (this : List Obj) : Decidable (atMostOneSelected this) := by
  unfold atMostOneSelected; infer_instance

deriving instance DecidableEq for Except

/-- The writes of a whole patch on one tab, in enumeration order. -/
def applyPatch (data : Obj) (t : Obj) : Obj :=
  data.foldl (fun t kv => setProp t kv.1 kv.2) t

/-- Tab lists reachable from the empty list by the tab-collection operations,
where `add` does not take a selected tab into a list that has one, `update`
does not set `selected` to a truthy value, and `setSelected` is called with an id
that at most one tab has. -/
inductive GuardedReachable : List Obj → Prop where
  | empty : GuardedReachable []
  | add (tabs : List Obj) (tab : Option Obj) (index : Option Int) (now : Int) (random : Nat) :
      GuardedReachable tabs →
      (truthy (getProp (tab.getD []) "selected") = false ∨ selectedCount tabs = 0) →
      GuardedReachable (tabPrototype.add tabs tab index now random).tabs
  | update (tabs : List Obj) (id : Val) (data : Obj) :
      GuardedReachable tabs →
      (∀ kv ∈ data, kv.1 = "selected" → truthy kv.2 = false) →
      GuardedReachable (tabPrototype.update tabs id data).tabs
  | destroy (tabs : List Obj) (id : Val) :
      GuardedReachable tabs → GuardedReachable (tabPrototype.destroy tabs id).tabs
  | setSelected (tabs : List Obj) (id : Val) :
      GuardedReachable tabs → tabs.countP (hasId id) ≤ 1 →
      GuardedReachable (tabPrototype.setSelected tabs id).tabs
  | reorder (tabs : List Obj) (newOrder : List Val) :
      GuardedReachable tabs → GuardedReachable (tabPrototype.reorder tabs newOrder)

/-! ## Object identity: `get` on a heap

The functions above describe tabs by their contents.  To say that a value
returned by `get` is a copy or a live object, objects and arrays are placed on
a heap and named by references. -/

/-- The heap: the objects and the arrays allocated so far.  A reference is a
position in the respective list; an array holds references to objects. -/
structure Heap where
  objects : List Obj
  arrays : List (List Nat)
  deriving DecidableEq

/-- The object a reference points to. -/
def Heap.object (h : Heap) (r : Nat) : Obj := (h.objects[r]?).getD []

/-- The entries of the array a reference points to. -/
def Heap.array (h : Heap) (a : Nat) : List Nat := (h.arrays[a]?).getD []

/-- The contents of the tabs of the array `a`, in order. -/
def Heap.tabsOf (h : Heap) (a : Nat) : List Obj := (h.array a).map h.object

/-- The array `this` and the tabs in it are allocated. -/
def Heap.wellFormed (h : Heap) (this : Nat) : Prop :=
  this < h.arrays.length ∧ ∀ r ∈ h.array this, r < h.objects.length

instance (h : Heap) (this : Nat) : Decidable (h.wellFormed this) := by
  unfold Heap.wellFormed; infer_instance

/-- What `get` returns, by reference: a new array, a tab of the list, or
`undefined`. -/
inductive RefResult where
  | all (tabsToReturn : Nat)
  | tab (t : Nat)
  | undefined
  deriving DecidableEq, Repr

/-- The contents of what `get` returned. -/
def RefResult.view (h : Heap) : RefResult → GetResult
  | .all a => .all (h.tabsOf a)
  | .tab r => .tab (h.object r)
  | .undefined => .undefined

/-- Function `get(id)` on the heap, `this` being the reference of the tab array.
Without an id, every `JSON.parse(JSON.stringify(this[i]))` allocates a new
object and `tabsToReturn` is a new array of these; with an id, the reference
stored in the tab array is returned. -/
def tabPrototype.getRef (h : Heap) (this : Nat) (id : Val) : Heap × RefResult :=
  if !truthy id then
    let copies := (h.array this).map (fun r => jsonCopy (h.object r))
    let tabsToReturn := List.range' h.objects.length copies.length
    ({ objects := h.objects ++ copies, arrays := h.arrays ++ [tabsToReturn] },
      .all h.arrays.length)
  else
    match (h.array this).find? (fun r => hasId id (h.object r)) with
    | some r => (h, .tab r)
    | none => (h, .undefined)

/-- A change a caller makes to the heap: the object at a reference is given new
contents (any property written or deleted), or the array at a reference is
given new entries. -/
inductive Change where
  | object (r : Nat) (o : Obj)
  | array (a : Nat) (entries : List Nat)

/-- The heap after a change. -/
def Heap.apply (h : Heap) : Change → Heap
  | .object r o => { h with objects := h.objects.set r o }
  | .array a entries => { h with arrays := h.arrays.set a entries }

/-- The change is made to the array `ret` or to one of the objects `entries`. -/
def Change.within (ret : Nat) (entries : List Nat) : Change → Prop
  | .object r _ => r ∈ entries
  | .array a _ => a = ret

instance (ret : Nat) (entries : List Nat) (c : Change) : Decidable (c.within ret entries) := by
  cases c <;> unfold Change.within <;> infer_instance

/-- The heap `h'` has the objects of `h` below `n` and its arrays below `a`. -/
def Heap.agreeBelow (n a : Nat) (h h' : Heap) : Prop :=
  (∀ r, r < n → h'.objects[r]? = h.objects[r]?) ∧ (∀ b, b < a → h'.arrays[b]? = h.arrays[b]?)

/-! ## Tasks and the helper predicate -/

/-- A task `{name, tabs, selectedTab, id}`. -/
structure TaskObj where
  name : Val
  tabs : List Obj
  selectedTab : Val
  id : Val
  deriving DecidableEq

/-- The variable `tabState`: the tasks and the id of the selected task. -/
structure TabState where
  tasks : List TaskObj
  selectedTask : Val
  deriving DecidableEq

/-- The result of `tasks.get`: the array of all tasks, one task, or `null`. -/
inductive TasksGetResult where
  | all (tasks : List TaskObj)
  | task (t : TaskObj)
  | null
  deriving DecidableEq

/-- The globals `window.currentTask` and `window.tabs` that `tasks.setSelected`
assigns, by their contents; `none` is `undefined`. -/
structure Window where
  currentTask : Option TasksGetResult
  tabs : Option (List Obj)
  deriving DecidableEq

/-- The state the task operations work on: `tabState` and the two globals. -/
structure World where
  tabState : TabState
  window : Window
  deriving DecidableEq

/-- The initial state: `tabState = {tasks: [], selectedTask: null}`, and the
globals not yet assigned. -/
def World.initial : World := ⟨⟨[], .null⟩, ⟨none, none⟩⟩

namespace tasks

/-- Function `tasks.add(name, id)`; `random` is the value of `getRandomId()`.
The methods of `tabPrototype` it attaches are the functions of the namespace
`tabPrototype`, applied to the field `tabs` of a task. -/
def add (w : World) (name id : Val) (random : Nat) : World × Val :=
  let task : TaskObj :=
    { name := orElse name .null, tabs := [], selectedTab := .null,
      id := orElse id (.num random) }
  ({ w with tabState := { w.tabState with tasks := w.tabState.tasks ++ [task] } }, task.id)

/-- Function `tasks.get(id)`. -/
def get (w : World) (id : Val) : TasksGetResult :=
  if !truthy id then
    .all w.tabState.tasks
  else
    match w.tabState.tasks.find? (fun t => looseEq t.id id) with
    | some t => .task t
    | none => .null

/-- Function `tasks.setSelected(id)`.  The read `currentTask.tabs` throws a
`TypeError` when `currentTask` is `null`, and is `undefined` when it is the array
of all tasks. -/
def setSelected (w : World) (id : Val) : World × Except Err Unit :=
  let w₁ : World := { w with tabState := { w.tabState with selectedTask := id } }
  let currentTask := get w₁ id
  let w₂ : World := { w₁ with window := { w₁.window with currentTask := some currentTask } }
  match currentTask with
  | .null => (w₂, .error .typeError)
  | .task t => ({ w₂ with window := { w₂.window with tabs := some t.tabs } }, .ok ())
  | .all _ => ({ w₂ with window := { w₂.window with tabs := none } }, .ok ())

/-- The loop of `tasks.destroy`, started at index `i`. -/
def firstIndexFrom (id : Val) : List TaskObj → Nat → Option Nat
  | [], _ => none
  | t :: rest, i => if looseEq t.id id then some i else firstIndexFrom id rest (i + 1)

/-- Function `tasks.destroy(id)`: returns the index as a number, or `false`. -/
def destroy (w : World) (id : Val) : World × Val :=
  match firstIndexFrom id w.tabState.tasks 0 with
  | some i =>
    ({ w with tabState := { w.tabState with tasks := w.tabState.tasks.eraseIdx i } }, .num i)
  | none => (w, .bool false)

end tasks

/-- Function `isEmpty(tabList)`; `none` is a missing (falsy) argument. -/
def isEmpty (tabList : Option (List Obj)) : Bool :=
  match tabList with
  | none => true
  | some tabList =>
    if tabList.length = 0 then true
    else if tabList.length = 1 ∧
        (!truthy (getProp (tabList.headD []) "url")
          || looseEq (getProp (tabList.headD []) "url") (.str "about:blank")) then true
    else false

/-- The invariant of the store: `selectedTask` is `null` or the id of a task of
the store. -/
def selectedTaskExists (w : World) : Prop :=
  w.tabState.selectedTask = .null ∨ ∃ t ∈ w.tabState.tasks, t.id = w.tabState.selectedTask

instance (w : World) : Decidable (selectedTaskExists w) := by
  unfold selectedTaskExists; infer_instance

/-- States reachable from the initial state by `tasks.add`, by `tasks.setSelected`
with the id of a task of the store, and by `tasks.destroy` with an id that is not
`==` to `selectedTask`. -/
inductive GuardedStoreReachable : World → Prop where
  | initial : GuardedStoreReachable World.initial
  | add (w : World) (name id : Val) (random : Nat) :
      GuardedStoreReachable w → GuardedStoreReachable (tasks.add w name id random).1
  | setSelected (w : World) (id : Val) :
      GuardedStoreReachable w → (∃ t ∈ w.tabState.tasks, t.id = id) →
      GuardedStoreReachable (tasks.setSelected w id).1
  | destroy (w : World) (id : Val) :
      GuardedStoreReachable w → looseEq w.tabState.selectedTask id = false →
      GuardedStoreReachable (tasks.destroy w id).1

/-- States reachable from the initial state by any calls of `tasks.add`,
`tasks.setSelected` and `tasks.destroy`. -/
inductive StoreReachable : World → Prop where
  | initial : StoreReachable World.initial
  | add (w : World) (name id : Val) (random : Nat) :
      StoreReachable w → StoreReachable (tasks.add w name id random).1
  | setSelected (w : World) (id : Val) :
      StoreReachable w → StoreReachable (tasks.setSelected w id).1
  | destroy (w : World) (id : Val) :
      StoreReachable w → StoreReachable (tasks.destroy w id).1

/-- The tab that `add` stores for the input `tab`. -/
def addedTab (tab : Option Obj) (now : Int) (random : Nat) : Obj :=
  tabPrototype.newTab (tab.getD [])
    (orElse (getProp (tab.getD []) "id") (.num random)) now

/-- The tab's id occurs in `newOrder` (compared by `===`, as `indexOf` does). -/
def occursIn (newOrder : List Val) (t : Obj) : Bool := decide (getProp t "id" ∈ newOrder)

/-- The ids of the tabs, in order. -/
def idsOf (tabs : List Obj) : List Val := tabs.map (fun t => getProp t "id")

/-- The tab list left by `setSelected(b)` followed by `destroy(a)`. -/
def selectThenDestroy (tabs : List Obj) (a b : Val) : List Obj :=
  (tabPrototype.destroy (tabPrototype.setSelected tabs b).tabs a).tabs

/-! # Theorems -/

/-! ## Values and objects -/

theorem looseEq_comm (a b : Val) : looseEq a b = looseEq b a := by
  cases a <;> cases b <;> simp [looseEq, eq_comm]

theorem looseEq_refl (a : Val) : looseEq a a = true := by
  cases a <;> simp [looseEq]

/-- The conversion of strings to numbers on a sample of literals: decimal
integers, fractions and exponents that denote integers, hexadecimal, octal and
binary literals, values above `2 ^ 53` (rounded to the nearest double), and
strings that are not integers. -/
theorem stringToNumber_samples :
    stringToNumber "1" = some 1 ∧ stringToNumber "1.0" = some 1 ∧
    stringToNumber "1e0" = some 1 ∧ stringToNumber "0x1" = some 1 ∧
    stringToNumber "1." = some 1 ∧ stringToNumber "1e2" = some 100 ∧
    stringToNumber " 12 " = some 12 ∧ stringToNumber "-5" = some (-5) ∧
    stringToNumber "" = some 0 ∧ stringToNumber ".5e1" = some 5 ∧
    stringToNumber "0b11" = some 3 ∧ stringToNumber "0o17" = some 15 ∧
    stringToNumber "0X1f" = some 31 ∧ stringToNumber "-0x1" = none ∧
    stringToNumber "1.5" = none ∧ stringToNumber "1e" = none ∧
    stringToNumber "Infinity" = none ∧ stringToNumber "about:blank" = none ∧
    stringToNumber "9007199254740993" = some 9007199254740992 ∧
    stringToNumber "0.99999999999999999999" = some 1 := by
  decide

/-- The comparison `==` between the number 1 and strings that denote it. -/
theorem looseEq_samples :
    looseEq (.num 1) (.str "1") = true ∧ looseEq (.num 1) (.str "1.0") = true ∧
    looseEq (.str "0x1") (.num 1) = true ∧ looseEq (.str "1") (.str "1.0") = false ∧
    looseEq (.bool true) (.str "1") = true ∧ looseEq (.num 0) (.str "") = true ∧
    looseEq (.null) (.undefined) = true ∧ looseEq (.num 0) (.null) = false := by
  decide

theorem getProp_setProp_same (o : Obj) (k : String) (v : Val) :
    getProp (setProp o k v) k = v := by
  induction o with
  | nil => simp [setProp, getProp]
  | cons p rest ih =>
    obtain ⟨k', v'⟩ := p
    by_cases h : k' = k
    · simp [setProp, getProp, h]
    · simp [setProp, getProp, h, ih]

theorem getProp_setProp_ne (o : Obj) (k k' : String) (v : Val) (h : k' ≠ k) :
    getProp (setProp o k v) k' = getProp o k' := by
  induction o with
  | nil => simp [setProp, getProp, Ne.symm h]
  | cons p rest ih =>
    obtain ⟨k₀, v₀⟩ := p
    by_cases h₀ : k₀ = k
    · subst h₀
      simp [setProp, getProp, Ne.symm h]
    · by_cases h₁ : k₀ = k'
      · subst h₁
        simp [setProp, getProp, h]
      · simp [setProp, getProp, h₀, h₁, ih]

/-! ## Lookup -/

theorem find_hasId_none_iff (tabs : List Obj) (id : Val) :
    tabs.find? (hasId id) = none ↔ ∀ t ∈ tabs, hasId id t = false := by
  simp [List.find?_eq_none]

theorem get_truthy_eq_false_iff (tabs : List Obj) (id : Val) :
    (tabPrototype.get tabs id).truthy = false ↔
      truthy id = true ∧ ∀ t ∈ tabs, hasId id t = false := by
  unfold tabPrototype.get
  by_cases hid : truthy id = true
  · cases hf : tabs.find? (hasId id) with
    | none =>
      have hall := (find_hasId_none_iff tabs id).1 hf
      simp only [hid, Bool.not_true, Bool.false_eq_true, if_false, GetResult.truthy, true_and]
      exact ⟨fun _ => hall, fun _ => trivial⟩
    | some t =>
      have hmem := List.mem_of_find?_eq_some hf
      have hp := List.find?_some hf
      simp only [hid, Bool.not_true, Bool.false_eq_true, if_false, GetResult.truthy, true_and]
      constructor
      · intro h; cases h
      · intro h
        have := h t hmem
        rw [hp] at this
        cases this
  · simp [hid, GetResult.truthy]

theorem hasId_of_carries {tabs : List Obj} {id : Val} (h : carriesId tabs id) :
    ∃ t ∈ tabs, hasId id t = true := by
  obtain ⟨t, ht, hid⟩ := h
  exact ⟨t, ht, by simp [hasId, hid, looseEq_refl]⟩

theorem get_truthy_of_carries {tabs : List Obj} {id : Val} (h : carriesId tabs id) :
    (tabPrototype.get tabs id).truthy = true := by
  cases hg : (tabPrototype.get tabs id).truthy with
  | true => rfl
  | false =>
    obtain ⟨t, ht, hid⟩ := hasId_of_carries h
    have := ((get_truthy_eq_false_iff tabs id).1 hg).2 t ht
    rw [hid] at this
    cases this

/-- When no two ids are `==`, the only tab that is `==` to an id carried by a
tab is the tab that carries it. -/
theorem id_eq_of_hasId {tabs : List Obj} {id : Val} (hd : looselyDistinctIds tabs)
    (hc : carriesId tabs id) {t : Obj} (ht : t ∈ tabs) (h : hasId id t = true) :
    getProp t "id" = id := by
  obtain ⟨s, hs, hsid⟩ := hc
  by_cases hst : s = t
  · rw [← hst]; exact hsid
  · have hsym : Symmetric (fun a b : Obj => looseEq (getProp a "id") (getProp b "id") = false) := by
      intro a b hab
      rw [looseEq_comm]; exact hab
    have := List.Pairwise.forall hsym hd ht hs (Ne.symm hst)
    simp only [hasId, ← hsid] at h
    rw [h] at this
    cases this

theorem countP_hasId_eq_one {tabs : List Obj} {id : Val} (hd : looselyDistinctIds tabs)
    (hc : carriesId tabs id) : tabs.countP (hasId id) = 1 := by
  induction tabs with
  | nil => obtain ⟨t, ht, _⟩ := hc; cases ht
  | cons a l ih =>
    have hd' := hd
    unfold looselyDistinctIds at hd'
    rw [List.pairwise_cons] at hd'
    obtain ⟨hal, hl⟩ := hd'
    obtain ⟨t, ht, hid⟩ := hc
    rcases List.mem_cons.1 ht with rfl | htl
    · have h0 : l.countP (hasId id) = 0 := by
        rw [List.countP_eq_zero]
        intro b hb
        have := hal b hb
        simp [hasId, ← hid, looseEq_comm (getProp b "id"), this]
      have ha : hasId id t = true := by simp [hasId, hid, looseEq_refl]
      rw [List.countP_cons, h0, ha]
      rfl
    · have ha : hasId id a = false := by
        have := hal t htl
        simpa [hasId, ← hid] using this
      rw [List.countP_cons, ih hl ⟨t, htl, hid⟩, ha]
      rfl

/-! ## Selection -/

/-- The step of the loop of `setSelected` on one tab. -/
theorem isSelected_select (id : Val) (t : Obj) :
    isSelected (if hasId id t then setProp t "selected" (.bool true)
      else setProp t "selected" (.bool false)) = hasId id t := by
  cases h : hasId id t <;> simp [isSelected, getProp_setProp_same, truthy]

theorem selectedCount_map_select (tabs : List Obj) (id : Val) :
    selectedCount (tabs.map (fun t =>
        if hasId id t then setProp t "selected" (.bool true)
        else setProp t "selected" (.bool false))) = tabs.countP (hasId id) := by
  unfold selectedCount
  rw [List.countP_map]
  congr 1
  funext t
  exact isSelected_select id t

/-- C1 (amended): on a tab list no two of whose ids are `==`, `setSelected(id)`
with the id of one of its tabs returns without error, and afterwards exactly one
tab is selected; every selected tab has `selected = true` and carries the id `id`. -/
theorem C1_setSelected_exactly_one (tabs : List Obj) (id : Val)
    (hd : looselyDistinctIds tabs) (hc : carriesId tabs id) :
    (tabPrototype.setSelected tabs id).result = .ok () ∧
    selectedCount (tabPrototype.setSelected tabs id).tabs = 1 ∧
    ∀ t ∈ (tabPrototype.setSelected tabs id).tabs, isSelected t = true →
      getProp t "selected" = .bool true ∧ getProp t "id" = id := by
  have hg := get_truthy_of_carries hc
  unfold tabPrototype.setSelected
  simp only [hg, Bool.not_true, Bool.false_eq_true, if_false]
  refine ⟨trivial, ?_, ?_⟩
  · rw [selectedCount_map_select]
    exact countP_hasId_eq_one hd hc
  · intro t ht hsel
    obtain ⟨s, hs, rfl⟩ := List.mem_map.1 ht
    rw [isSelected_select] at hsel
    have hsid := id_eq_of_hasId hd hc hs hsel
    simp only [hsel, if_true]
    refine ⟨getProp_setProp_same _ _ _, ?_⟩
    rw [getProp_setProp_ne _ _ _ _ (by decide)]
    exact hsid

/-- Witness for C1: the list with ids 1, 2, 3 (tabs 1 and 3 selected before),
selecting 2. -/
theorem C1_setSelected_exactly_one_witness :
    looselyDistinctIds [[("id", .num 1), ("selected", .bool true)], [("id", .num 2)],
      [("id", .num 3), ("selected", .bool true)]] ∧
    carriesId [[("id", .num 1), ("selected", .bool true)], [("id", .num 2)],
      [("id", .num 3), ("selected", .bool true)]] (.num 2) ∧
    selectedCount (tabPrototype.setSelected
      [[("id", .num 1), ("selected", .bool true)], [("id", .num 2)],
        [("id", .num 3), ("selected", .bool true)]] (.num 2)).tabs = 1 :=
  ⟨by decide, by decide,
    (C1_setSelected_exactly_one _ (.num 2) (by decide) (by decide)).2.1⟩

/-- C1 (as stated) fails: with two tabs of id 1, `setSelected(1)` returns without
error and leaves two tabs selected; so it does with the two different ids `"1"`
and `1`, which are `==`; and `setSelected(0)` on a list without a tab of id 0
returns without error and leaves no tab selected. -/
theorem C1_counterexample :
    ((tabPrototype.setSelected [[("id", .num 1)], [("id", .num 1)]] (.num 1)).result = .ok () ∧
      selectedCount
        (tabPrototype.setSelected [[("id", .num 1)], [("id", .num 1)]] (.num 1)).tabs = 2) ∧
    ((idsOf [[("id", .str "1")], [("id", .num 1)]]).Nodup ∧
      (tabPrototype.setSelected [[("id", .str "1")], [("id", .num 1)]] (.num 1)).result
        = .ok () ∧
      selectedCount
        (tabPrototype.setSelected [[("id", .str "1")], [("id", .num 1)]] (.num 1)).tabs = 2) ∧
    ((tabPrototype.setSelected [[("id", .num 5), ("selected", .bool true)]] (.num 0)).result
        = .ok () ∧
      selectedCount
        (tabPrototype.setSelected [[("id", .num 5), ("selected", .bool true)]] (.num 0)).tabs
        = 0) := by
  decide

/-! ## The invariant "at most one tab is selected" -/

theorem isSelected_setProp (t : Obj) (k : String) (v : Val) :
    isSelected (setProp t k v) = if k = "selected" then truthy v else isSelected t := by
  by_cases hk : k = "selected"
  · subst hk
    simp [isSelected, getProp_setProp_same]
  · simp [isSelected, hk, getProp_setProp_ne _ _ _ _ (Ne.symm hk)]

theorem countP_modify_le (f : Obj → Obj)
    (hf : ∀ t, isSelected (f t) = true → isSelected t = true) :
    ∀ (l : List Obj) (n : Nat), (List.modify f n l).countP isSelected ≤ l.countP isSelected := by
  intro l
  induction l with
  | nil => intro n; simp
  | cons a l ih =>
    intro n
    cases n with
    | zero =>
      simp only [List.modify_zero_cons, List.countP_cons]
      have : (if isSelected (f a) = true then 1 else 0) ≤ (if isSelected a = true then 1 else 0) := by
        by_cases h : isSelected (f a) = true
        · simp [h, hf a h]
        · simp [h]
      omega
    | succ n =>
      simp only [List.modify_succ_cons, List.countP_cons]
      have := ih n
      omega

theorem selectedCount_updateLoop_le (index : Int) :
    ∀ (data : Obj) (tabs : List Obj),
      (∀ kv ∈ data, kv.1 = "selected" → truthy kv.2 = false) →
      selectedCount (tabPrototype.updateLoop index tabs data).tabs ≤ selectedCount tabs := by
  intro data
  induction data with
  | nil => intro tabs _; simp [tabPrototype.updateLoop]
  | cons kv rest ih =>
    intro tabs h
    obtain ⟨key, value⟩ := kv
    unfold tabPrototype.updateLoop
    by_cases hu : looseEq value .undefined = true
    · simp [hu]
    · by_cases hi : index < 0
      · simp [hu, hi]
      · simp only [hu, hi, if_false, Bool.false_eq_true]
        refine le_trans (ih _ (fun kv hkv => h kv (List.mem_cons_of_mem _ hkv))) ?_
        apply countP_modify_le
        intro t ht
        rw [isSelected_setProp] at ht
        by_cases hk : key = "selected"
        · have := h (key, value) (List.mem_cons_self _ _) hk
          simp [hk] at ht
          simp [ht] at this
        · simpa [hk] using ht

theorem truthy_orElse_false (a : Val) : truthy (orElse a (.bool false)) = truthy a := by
  unfold orElse
  cases h : truthy a with
  | true => simp [h]
  | false => simp; rfl

theorem isSelected_newTab (tab : Obj) (tabId : Val) (now : Int) :
    isSelected (tabPrototype.newTab tab tabId now) = truthy (getProp tab "selected") := by
  simp only [isSelected, tabPrototype.newTab, getProp]
  simp only [show ("url" = "selected") = False from by decide,
    show ("title" = "selected") = False from by decide,
    show ("id" = "selected") = False from by decide,
    show ("lastActivity" = "selected") = False from by decide,
    show ("secure" = "selected") = False from by decide,
    show ("private" = "selected") = False from by decide,
    show ("readerable" = "selected") = False from by decide,
    show ("backgroundColor" = "selected") = False from by decide,
    show ("foregroundColor" = "selected") = False from by decide, if_false, if_true]
  exact truthy_orElse_false _

theorem selectedCount_add (tabs : List Obj) (tab : Option Obj) (index : Option Int)
    (now : Int) (random : Nat) :
    selectedCount (tabPrototype.add tabs tab index now random).tabs =
      selectedCount tabs + (if truthy (getProp (tab.getD []) "selected") = true then 1 else 0) := by
  have key : ∀ (n : Nat) (t : Obj),
      selectedCount (tabs.take n ++ t :: tabs.drop n) =
        selectedCount tabs + (if isSelected t = true then 1 else 0) := by
    intro n t
    have h := congrArg (List.countP isSelected) (List.take_append_drop n tabs)
    simp only [selectedCount, List.countP_append, List.countP_cons] at h ⊢
    omega
  have hend : ∀ t : Obj, selectedCount (tabs ++ [t]) =
      selectedCount tabs + (if isSelected t = true then 1 else 0) := by
    intro t
    simp [selectedCount, List.countP_append, List.countP_cons]
  have hsel : ∀ (tabId : Val), isSelected (tabPrototype.newTab (match tab with
      | some t => t
      | none => []) tabId now) = truthy (getProp (tab.getD []) "selected") := by
    intro tabId
    rw [isSelected_newTab]
    cases tab <;> rfl
  unfold tabPrototype.add
  cases index with
  | none => simp only [hend, hsel]
  | some i =>
    by_cases hi : i = 0
    · simp only [hi, ne_eq, not_true_eq_false, if_false, hend, hsel]
    · simp only [hi, ne_eq, not_false_eq_true, if_true, tabPrototype.spliceInsert, key, hsel]

theorem atMostOne_add {tabs : List Obj} (h : atMostOneSelected tabs) (tab : Option Obj)
    (index : Option Int) (now : Int) (random : Nat)
    (hg : truthy (getProp (tab.getD []) "selected") = false ∨ selectedCount tabs = 0) :
    atMostOneSelected (tabPrototype.add tabs tab index now random).tabs := by
  unfold atMostOneSelected at h ⊢
  rw [selectedCount_add]
  rcases hg with hg | hg
  · simp [hg]; exact h
  · rw [hg]; split <;> omega

theorem atMostOne_update {tabs : List Obj} (h : atMostOneSelected tabs) (id : Val) (data : Obj)
    (hg : ∀ kv ∈ data, kv.1 = "selected" → truthy kv.2 = false) :
    atMostOneSelected (tabPrototype.update tabs id data).tabs := by
  unfold atMostOneSelected at h ⊢
  unfold tabPrototype.update
  split
  · exact h
  · exact le_trans (selectedCount_updateLoop_le _ data tabs hg) h

theorem atMostOne_destroy {tabs : List Obj} (h : atMostOneSelected tabs) (id : Val) :
    atMostOneSelected (tabPrototype.destroy tabs id).tabs := by
  unfold atMostOneSelected at h ⊢
  unfold tabPrototype.destroy
  split
  · exact le_trans (List.Sublist.countP_le _ (List.eraseIdx_sublist _ _)) h
  · exact h

theorem atMostOne_setSelected {tabs : List Obj} (h : atMostOneSelected tabs) (id : Val)
    (hg : tabs.countP (hasId id) ≤ 1) :
    atMostOneSelected (tabPrototype.setSelected tabs id).tabs := by
  unfold atMostOneSelected at h ⊢
  unfold tabPrototype.setSelected
  split
  · exact h
  · simp only [selectedCount_map_select]; exact hg

theorem atMostOne_reorder {tabs : List Obj} (h : atMostOneSelected tabs) (newOrder : List Val) :
    atMostOneSelected (tabPrototype.reorder tabs newOrder) := by
  unfold atMostOneSelected selectedCount at h ⊢
  unfold tabPrototype.reorder
  rw [List.Perm.countP_eq _ (List.perm_insertionSort _ _)]
  exact h

/-- C2 (amended): "at most one tab is selected" holds for the empty list, is
preserved by `destroy` and `reorder`, by `add` when the input tab is not selected
or the list has no selected tab, by `update` when the patch does not set
`selected` to a truthy value, and by `setSelected(id)` when at most one tab has
the id; so it holds in every list reachable from the empty list by these calls. -/
theorem C2_at_most_one_selected (tabs : List Obj) (h : atMostOneSelected tabs) :
    atMostOneSelected [] ∧
    (∀ id, atMostOneSelected (tabPrototype.destroy tabs id).tabs) ∧
    (∀ newOrder, atMostOneSelected (tabPrototype.reorder tabs newOrder)) ∧
    (∀ tab index now random,
      (truthy (getProp (tab.getD []) "selected") = false ∨ selectedCount tabs = 0) →
      atMostOneSelected (tabPrototype.add tabs tab index now random).tabs) ∧
    (∀ id data, (∀ kv ∈ data, kv.1 = "selected" → truthy kv.2 = false) →
      atMostOneSelected (tabPrototype.update tabs id data).tabs) ∧
    (∀ id, tabs.countP (hasId id) ≤ 1 →
      atMostOneSelected (tabPrototype.setSelected tabs id).tabs) ∧
    (∀ l, GuardedReachable l → atMostOneSelected l) := by
  refine ⟨by decide, atMostOne_destroy h, atMostOne_reorder h, atMostOne_add h,
    atMostOne_update h, atMostOne_setSelected h, ?_⟩
  intro l hl
  induction hl with
  | empty => decide
  | add tabs tab index now random _ hg ih => exact atMostOne_add ih tab index now random hg
  | update tabs id data _ hg ih => exact atMostOne_update ih id data hg
  | destroy tabs id _ ih => exact atMostOne_destroy ih id
  | setSelected tabs id _ hg ih => exact atMostOne_setSelected ih id hg
  | reorder tabs newOrder _ ih => exact atMostOne_reorder ih newOrder

/-- Witness for C2: a list of two tabs, the first selected; destroying tab 2. -/
theorem C2_at_most_one_selected_witness :
    atMostOneSelected [[("id", .num 1), ("selected", .bool true)], [("id", .num 2)]] ∧
    atMostOneSelected (tabPrototype.destroy
      [[("id", .num 1), ("selected", .bool true)], [("id", .num 2)]] (.num 2)).tabs :=
  ⟨by decide,
    (C2_at_most_one_selected [[("id", .num 1), ("selected", .bool true)], [("id", .num 2)]]
      (by decide)).2.1 (.num 2)⟩

/-- C2 (as stated) fails: from the empty list, two `add` calls with a selected
input tab leave two selected tabs; so do `add`, `add`, `update(2, {selected: true})`;
and so do two `add` calls with the same id followed by `setSelected` of that id. -/
theorem C2_counterexample :
    ¬ atMostOneSelected
      (tabPrototype.add (tabPrototype.add [] (some [("selected", .bool true)]) none 0 1).tabs
        (some [("selected", .bool true)]) none 0 2).tabs ∧
    ¬ atMostOneSelected
      (tabPrototype.update
        (tabPrototype.add
          (tabPrototype.add [] (some [("id", .num 1), ("selected", .bool true)]) none 0 7).tabs
          (some [("id", .num 2)]) none 0 8).tabs
        (.num 2) [("selected", .bool true)]).tabs ∧
    ¬ atMostOneSelected
      (tabPrototype.setSelected
        (tabPrototype.add
          (tabPrototype.add [] (some [("id", .num 1)]) none 0 7).tabs
          (some [("id", .num 1)]) none 0 8).tabs
        (.num 1)).tabs := by
  decide

/-! ## The position of an id -/

theorem firstIndexFrom_none_iff (id : Val) (l : List Obj) (i : Nat) :
    tabPrototype.firstIndexFrom id l i = none ↔ ∀ t ∈ l, hasId id t = false := by
  induction l generalizing i with
  | nil => simp [tabPrototype.firstIndexFrom]
  | cons a l ih =>
    unfold tabPrototype.firstIndexFrom
    by_cases ha : hasId id a = true
    · simp [ha]
    · simp [ha, ih]

/-- When the search loop returns `j`, the list splits at the first tab that has
the id. -/
theorem firstIndexFrom_some {id : Val} {l : List Obj} {i j : Nat}
    (h : tabPrototype.firstIndexFrom id l i = some j) :
    ∃ pre t post, l = pre ++ t :: post ∧ j = i + pre.length ∧ hasId id t = true ∧
      ∀ s ∈ pre, hasId id s = false := by
  induction l generalizing i with
  | nil => simp [tabPrototype.firstIndexFrom] at h
  | cons a l ih =>
    unfold tabPrototype.firstIndexFrom at h
    by_cases ha : hasId id a = true
    · simp only [ha, if_true, Option.some.injEq] at h
      exact ⟨[], a, l, rfl, by simp [h], ha, by simp⟩
    · simp only [ha, if_false, Bool.false_eq_true] at h
      obtain ⟨pre, t, post, hl, hj, ht, hpre⟩ := ih h
      refine ⟨a :: pre, t, post, by simp [hl], by simp [hj]; omega, ht, ?_⟩
      intro s hs
      rcases List.mem_cons.1 hs with rfl | hs
      · simpa using ha
      · exact hpre s hs

theorem firstIndexFrom_isSome_of_mem {id : Val} {l : List Obj} (i : Nat)
    (h : ∃ t ∈ l, hasId id t = true) : ∃ j, tabPrototype.firstIndexFrom id l i = some j := by
  cases hf : tabPrototype.firstIndexFrom id l i with
  | some j => exact ⟨j, rfl⟩
  | none =>
    obtain ⟨t, ht, hid⟩ := h
    have := (firstIndexFrom_none_iff id l i).1 hf t ht
    rw [hid] at this
    cases this

/-! ## Removal -/

/-- C7: when some tab has the id, `destroy(id)` returns the least index `i` whose
tab has the id, and the list afterwards is the old list without its element at
`i` (one tab fewer, the tabs before `i` in place, the tabs after `i` one position
earlier); when no tab has the id, it returns `false` and the list is unchanged. -/
theorem C7_destroy_removes_first (tabs : List Obj) (id : Val) :
    ((∃ t ∈ tabs, hasId id t = true) →
      ∃ (i : Nat) (t : Obj), tabs[i]? = some t ∧ hasId id t = true ∧
        (∀ (j : Nat) (s : Obj), j < i → tabs[j]? = some s → hasId id s = false) ∧
        (tabPrototype.destroy tabs id).result = .ok (.num (Int.ofNat i)) ∧
        (tabPrototype.destroy tabs id).tabs = tabs.eraseIdx i ∧
        (tabPrototype.destroy tabs id).tabs.length + 1 = tabs.length ∧
        (∀ j : Nat, j < i → (tabPrototype.destroy tabs id).tabs[j]? = tabs[j]?) ∧
        (∀ j : Nat, i ≤ j → (tabPrototype.destroy tabs id).tabs[j]? = tabs[j + 1]?)) ∧
    ((∀ t ∈ tabs, hasId id t = false) →
      (tabPrototype.destroy tabs id).result = .ok (.bool false) ∧
      (tabPrototype.destroy tabs id).tabs = tabs) := by
  constructor
  · intro h
    obtain ⟨i, hi⟩ := firstIndexFrom_isSome_of_mem 0 h
    obtain ⟨pre, t, post, hl, hj, ht, hpre⟩ := firstIndexFrom_some hi
    have hi' : i = pre.length := by omega
    have hlen : i < tabs.length := by rw [hl, hi']; simp
    refine ⟨i, t, ?_, ht, ?_, ?_, ?_, ?_, ?_, ?_⟩
    · rw [hl, hi', List.getElem?_append_right (le_refl _)]; simp
    · intro j s hji hjs
      rw [hl, List.getElem?_append_left (by omega)] at hjs
      exact hpre s (List.getElem?_mem hjs)
    · simp [tabPrototype.destroy, hi]
    · simp [tabPrototype.destroy, hi]
    · simp only [tabPrototype.destroy, hi]
      rw [List.length_eraseIdx_of_lt hlen]
      omega
    · intro j hji
      simp only [tabPrototype.destroy, hi]
      exact List.getElem?_eraseIdx_of_lt _ _ _ hji
    · intro j hij
      simp only [tabPrototype.destroy, hi]
      exact List.getElem?_eraseIdx_of_ge _ _ _ hij
  · intro h
    have := (firstIndexFrom_none_iff id tabs 0).2 h
    simp [tabPrototype.destroy, this]

/-- Witness for C7: tabs 1 and 2, destroying tab 2, and destroying the absent
tab 7. -/
theorem C7_destroy_removes_first_witness :
    (∃ t ∈ [[("id", Val.num 1)], [("id", Val.num 2)]], hasId (.num 2) t = true) ∧
    (∃ i : Nat, (tabPrototype.destroy [[("id", .num 1)], [("id", .num 2)]] (.num 2)).result
      = .ok (.num (Int.ofNat i))) ∧
    (tabPrototype.destroy [[("id", .num 1)], [("id", .num 2)]] (.num 7)).result
      = .ok (.bool false) :=
  ⟨by decide,
    match (C7_destroy_removes_first [[("id", .num 1)], [("id", .num 2)]] (.num 2)).1
        (by decide) with
    | ⟨i, _, hh⟩ => ⟨i, hh.2.2.2.1⟩,
    ((C7_destroy_removes_first [[("id", .num 1)], [("id", .num 2)]] (.num 7)).2
      (by decide)).1⟩

theorem lastIndexFrom_of_none (id : Val) (l : List Obj) (i : Nat) (acc : Int)
    (h : ∀ s ∈ l, hasId id s = false) : tabPrototype.lastIndexFrom id l i acc = acc := by
  induction l generalizing i acc with
  | nil => rfl
  | cons a l ih =>
    unfold tabPrototype.lastIndexFrom
    rw [h a (List.mem_cons_self _ _)]
    exact ih _ _ (fun s hs => h s (List.mem_cons_of_mem _ hs))

theorem lastIndexFrom_append (id : Val) (l₁ l₂ : List Obj) (i : Nat) (acc : Int) :
    tabPrototype.lastIndexFrom id (l₁ ++ l₂) i acc =
      tabPrototype.lastIndexFrom id l₂ (i + l₁.length) (tabPrototype.lastIndexFrom id l₁ i acc) := by
  induction l₁ generalizing i acc with
  | nil => rfl
  | cons a l ih =>
    show tabPrototype.lastIndexFrom id (l ++ l₂) (i + 1) _ = _
    rw [ih]
    simp only [tabPrototype.lastIndexFrom, List.length_cons]
    congr 1
    omega

theorem find_of_split {id : Val} {pre post : List Obj} {t : Obj}
    (hpre : ∀ s ∈ pre, hasId id s = false) (ht : hasId id t = true) :
    (pre ++ t :: post).find? (hasId id) = some t := by
  induction pre with
  | nil => simp [List.find?, ht]
  | cons a l ih =>
    have ha := hpre a (List.mem_cons_self _ _)
    simp only [List.cons_append, List.find?, ha]
    exact ih (fun s hs => hpre s (List.mem_cons_of_mem _ hs))

/-- When no two ids are `==`, the list splits around the one tab that carries
the id: no tab before or after it has the id. -/
theorem split_of_distinct {tabs : List Obj} {id : Val} (hd : looselyDistinctIds tabs)
    (hc : carriesId tabs id) :
    ∃ pre t post, tabs = pre ++ t :: post ∧
      tabPrototype.firstIndexFrom id tabs 0 = some pre.length ∧ getProp t "id" = id ∧
      (∀ s ∈ pre, hasId id s = false) ∧ (∀ s ∈ post, hasId id s = false) := by
  obtain ⟨i, hi⟩ := firstIndexFrom_isSome_of_mem 0 (hasId_of_carries hc)
  obtain ⟨pre, t, post, hl, hj, ht, hpre⟩ := firstIndexFrom_some hi
  have hcount := countP_hasId_eq_one hd hc
  have htmem : t ∈ tabs := by rw [hl]; simp
  refine ⟨pre, t, post, hl, by rw [hi]; simp [hj], id_eq_of_hasId hd hc htmem ht, hpre, ?_⟩
  rw [hl, List.countP_append, List.countP_cons, ht] at hcount
  have h0 : post.countP (hasId id) = 0 := by
    simp only [if_true] at hcount
    omega
  intro s hs
  have := (List.countP_eq_zero.1 h0) s hs
  simpa using this

/-! ## Update -/

theorem getProp_applyPatch (data : Obj) (hk : (ownKeys data).Nodup) (t : Obj) (k : String) :
    getProp (applyPatch data t) k =
      if k ∈ ownKeys data then getProp data k else getProp t k := by
  induction data generalizing t with
  | nil => simp [applyPatch, ownKeys]
  | cons kv rest ih =>
    obtain ⟨k₀, v₀⟩ := kv
    simp only [ownKeys, List.map_cons, List.nodup_cons] at hk
    have ih' := ih hk.2 (setProp t k₀ v₀)
    simp only [applyPatch, List.foldl_cons] at ih' ⊢
    rw [ih']
    by_cases hkk : k₀ = k
    · subst hkk
      have hnot : k₀ ∉ ownKeys rest := hk.1
      rw [if_neg hnot, getProp_setProp_same]
      simp [ownKeys, getProp]
    · have hkk' : k ≠ k₀ := Ne.symm hkk
      simp only [ownKeys, List.map_cons, List.mem_cons, hkk', false_or, getProp, hkk, if_false]
      rw [getProp_setProp_ne _ _ _ _ hkk']

theorem updateLoop_ok (index : Int) (hi : 0 ≤ index) :
    ∀ (data : Obj) (tabs : List Obj), (∀ kv ∈ data, looseEq kv.2 .undefined = false) →
      tabPrototype.updateLoop index tabs data =
        ⟨List.modify (applyPatch data) index.toNat tabs, .ok ()⟩ := by
  intro data
  induction data with
  | nil =>
    intro tabs _
    have : applyPatch [] = id := by funext t; rfl
    simp [tabPrototype.updateLoop, this]
  | cons kv rest ih =>
    intro tabs h
    obtain ⟨key, value⟩ := kv
    have hv := h (key, value) (List.mem_cons_self _ _)
    simp only at hv
    unfold tabPrototype.updateLoop
    simp only [hv, Bool.false_eq_true, if_false, not_lt.2 hi]
    rw [ih _ (fun kv hkv => h kv (List.mem_cons_of_mem _ hkv)), List.modify_modify_eq]
    rfl

theorem looseEq_undefined_eq_false {v : Val} (h : v ≠ .undefined ∧ v ≠ .null) :
    looseEq v .undefined = false := by
  cases v <;> simp_all [looseEq]

/-- C3: evaluation at the failing input.  On the list with the one tab
`{id: 1, title: "a"}`, `update(1, {title: "x", url: undefined})` throws the
invalid-value error for `url`, and the title has already been overwritten. -/
theorem C3_update_writes_before_throwing :
    (tabPrototype.update [[("id", .num 1), ("title", .str "a")]] (.num 1)
        [("title", .str "x"), ("url", .undefined)]).result
      = .error (.referenceError "Key url is undefined.") ∧
    (tabPrototype.update [[("id", .num 1), ("title", .str "a")]] (.num 1)
        [("title", .str "x"), ("url", .undefined)]).tabs
      = [[("id", .num 1), ("title", .str "x")]] := by
  decide

/-- C4: evaluation at the failing input.  No tab of the list `[{id: 5}]` has the
id 0, yet `update(0, {title: "x"})` does not throw the not-found error but a
`TypeError`, and `update(0, {})` returns without error. -/
theorem C4_update_falsy_id_not_found_missed :
    (∀ t ∈ [[("id", Val.num 5)]], hasId (.num 0) t = false) ∧
    (tabPrototype.update [[("id", .num 5)]] (.num 0) [("title", .str "x")]).result
      = .error .typeError ∧
    (tabPrototype.update [[("id", .num 5)]] (.num 0) []).result = .ok () := by
  decide

/-- C5 (amended): on a tab list no two of whose ids are `==`, `update(id, patch)`
with the id of one of its tabs and a patch none of whose values is `undefined`
or `null` succeeds; afterwards the tab that carried the id holds, at its old
position, the patch's value under every key of the patch and its previous value
under every other key, and every other tab is unchanged at its position. -/
theorem C5_update_merges (tabs : List Obj) (id : Val) (data : Obj)
    (hd : looselyDistinctIds tabs) (hc : carriesId tabs id)
    (hv : ∀ kv ∈ data, kv.2 ≠ .undefined ∧ kv.2 ≠ .null)
    (hk : (ownKeys data).Nodup) :
    (tabPrototype.update tabs id data).result = .ok () ∧
    (tabPrototype.update tabs id data).tabs.length = tabs.length ∧
    ∀ (j : Nat) (t t' : Obj), tabs[j]? = some t →
      (tabPrototype.update tabs id data).tabs[j]? = some t' →
      (getProp t "id" = id →
        ∀ k, getProp t' k = if k ∈ ownKeys data then getProp data k else getProp t k) ∧
      (getProp t "id" ≠ id → t' = t) := by
  obtain ⟨pre, t₀, post, hl, _, hid₀, hpre, hpost⟩ := split_of_distinct hd hc
  have ht₀ : hasId id t₀ = true := by simp [hasId, hid₀, looseEq_refl]
  have hindex : tabPrototype.lastIndexFrom id tabs 0 (-1) = (pre.length : Int) := by
    rw [hl, lastIndexFrom_append, lastIndexFrom_of_none id pre 0 (-1) hpre]
    simp only [tabPrototype.lastIndexFrom, ht₀, if_true, Nat.zero_add]
    exact lastIndexFrom_of_none id post _ _ hpost
  have hupd : tabPrototype.update tabs id data =
      ⟨List.modify (applyPatch data) pre.length tabs, .ok ()⟩ := by
    unfold tabPrototype.update
    simp only [get_truthy_of_carries hc, Bool.not_true, Bool.false_eq_true, if_false, hindex]
    rw [updateLoop_ok _ (by omega) data tabs
      (fun kv hkv => looseEq_undefined_eq_false (hv kv hkv))]
    simp
  rw [hupd]
  refine ⟨rfl, by simp, ?_⟩
  intro j t t' hjt hjt'
  simp only [List.getElem?_modify, hjt, Option.map_eq_map, Option.map_some',
    Option.some.injEq] at hjt'
  have hjcases : (j = pre.length ∧ t = t₀) ∨ (j ≠ pre.length ∧ hasId id t = false) := by
    rw [hl] at hjt
    rcases Nat.lt_trichotomy j pre.length with hlt | heq | hgt
    · rw [List.getElem?_append_left hlt] at hjt
      exact Or.inr ⟨by omega, hpre t (List.getElem?_mem hjt)⟩
    · subst heq
      rw [List.getElem?_append_right (le_refl _)] at hjt
      simp at hjt
      exact Or.inl ⟨rfl, hjt.symm⟩
    · rw [List.getElem?_append_right (by omega)] at hjt
      obtain ⟨m, hm⟩ : ∃ m, j - pre.length = m + 1 := ⟨j - pre.length - 1, by omega⟩
      rw [hm] at hjt
      simp at hjt
      exact Or.inr ⟨by omega, hpost t (List.getElem?_mem hjt)⟩
  rcases hjcases with ⟨hj, rfl⟩ | ⟨hj, hno⟩
  · subst hj
    simp only [if_true] at hjt'
    subst hjt'
    exact ⟨fun _ k => getProp_applyPatch data hk t k, fun hne => absurd hid₀ hne⟩
  · simp only [Ne.symm hj, if_false] at hjt'
    refine ⟨fun hid => ?_, fun _ => hjt'.symm⟩
    simp [hasId, hid, looseEq_refl] at hno

/-- Witness for C5: tabs 1 and 2, patching the title of tab 1. -/
theorem C5_update_merges_witness :
    (tabPrototype.update [[("id", .num 1), ("title", .str "a")], [("id", .num 2)]] (.num 1)
        [("title", .str "x")]).result = .ok () :=
  (C5_update_merges [[("id", .num 1), ("title", .str "a")], [("id", .num 2)]] (.num 1)
    [("title", .str "x")] (by decide) (by decide) (by decide) (by decide)).1

/-- C5 (as stated) fails: the ids are distinct, tab 1 is in the list and no value
of the patch `{title: null}` is `undefined`, yet `update` throws; and in the list
with the two different ids `1` and `"1"`, which are `==`, `update(1, {title: "x"})`
leaves the tab with id `1` as it was and writes the title of the tab with id `"1"`. -/
theorem C5_counterexample :
    (looselyDistinctIds [[("id", .num 1), ("title", .str "a")]] ∧
      carriesId [[("id", .num 1), ("title", .str "a")]] (.num 1) ∧
      (∀ kv ∈ [("title", Val.null)], kv.2 ≠ Val.undefined) ∧
      (tabPrototype.update [[("id", .num 1), ("title", .str "a")]] (.num 1)
          [("title", .null)]).result
        = .error (.referenceError "Key title is undefined.")) ∧
    ((idsOf [[("id", .num 1), ("title", .str "a")], [("id", .str "1"), ("title", .str "b")]]).Nodup ∧
      carriesId [[("id", .num 1), ("title", .str "a")], [("id", .str "1"), ("title", .str "b")]]
        (.num 1) ∧
      (tabPrototype.update
          [[("id", .num 1), ("title", .str "a")], [("id", .str "1"), ("title", .str "b")]]
          (.num 1) [("title", .str "x")]).tabs
        = [[("id", .num 1), ("title", .str "a")], [("id", .str "1"), ("title", .str "x")]]) := by
  decide

/-- C6: evaluation at the failing input.  No tab of the list
`[{id: 5, selected: true}]` has the id 0, yet `setSelected(0)` returns without
error, and it has cleared the flag of tab 5. -/
theorem C6_setSelected_falsy_id_not_found_missed :
    (∀ t ∈ [[("id", Val.num 5), ("selected", Val.bool true)]], hasId (.num 0) t = false) ∧
    (tabPrototype.setSelected [[("id", .num 5), ("selected", .bool true)]] (.num 0)).result
      = .ok () ∧
    (tabPrototype.setSelected [[("id", .num 5), ("selected", .bool true)]] (.num 0)).tabs
      = [[("id", .num 5), ("selected", .bool false)]] := by
  decide

/-! ## Lookup after removal -/

/-- C8 (amended): for an id carried by a tab of the list, `destroy(id)` returns
`getIndex(id)` as evaluated before the call; and when the ids are pairwise
distinct and the id is truthy, `get(id)` after the call returns `undefined`. -/
theorem C8_destroy_index_then_get (tabs : List Obj) (id : Val) (hc : carriesId tabs id) :
    (tabPrototype.destroy tabs id).result = .ok (.num (tabPrototype.getIndex tabs id)) ∧
    (looselyDistinctIds tabs → truthy id = true →
      tabPrototype.get (tabPrototype.destroy tabs id).tabs id = .undefined) := by
  constructor
  · obtain ⟨i, hi⟩ := firstIndexFrom_isSome_of_mem 0 (hasId_of_carries hc)
    simp [tabPrototype.destroy, tabPrototype.getIndex, hi]
  · intro hd hid
    obtain ⟨pre, t₀, post, hl, hfirst, _, hpre, hpost⟩ := split_of_distinct hd hc
    have herase : tabs.eraseIdx pre.length = pre ++ post := by
      rw [hl, List.eraseIdx_append_of_length_le (le_refl _)]
      simp
    have hnone : (pre ++ post).find? (hasId id) = none := by
      rw [find_hasId_none_iff]
      intro s hs
      rcases List.mem_append.1 hs with hs | hs
      · exact hpre s hs
      · exact hpost s hs
    simp [tabPrototype.destroy, hfirst, herase, tabPrototype.get, hid, hnone]

/-- Witness for C8: tabs 1, 2, 3, destroying tab 2. -/
theorem C8_destroy_index_then_get_witness :
    (tabPrototype.destroy [[("id", .num 1)], [("id", .num 2)], [("id", .num 3)]] (.num 2)).result
      = .ok (.num (tabPrototype.getIndex
          [[("id", .num 1)], [("id", .num 2)], [("id", .num 3)]] (.num 2))) ∧
    tabPrototype.get
      (tabPrototype.destroy [[("id", .num 1)], [("id", .num 2)], [("id", .num 3)]] (.num 2)).tabs
      (.num 2) = .undefined :=
  ⟨(C8_destroy_index_then_get [[("id", .num 1)], [("id", .num 2)], [("id", .num 3)]] (.num 2)
      (by decide)).1,
    (C8_destroy_index_then_get [[("id", .num 1)], [("id", .num 2)], [("id", .num 3)]] (.num 2)
      (by decide)).2 (by decide) (by decide)⟩

/-- C8 (as stated) fails: with two tabs of id 1, `get(1)` after `destroy(1)` returns
the second of them; with the two different ids `1` and `"1"`, which are `==`,
`get(1)` after `destroy(1)` returns the tab with id `"1"`; and after `destroy(0)`
of the only tab, of id 0, `get(0)` returns the empty list of copies, not
`undefined`. -/
theorem C8_counterexample :
    ((idsOf [[("id", .num 1)], [("id", .str "1")]]).Nodup ∧
      carriesId [[("id", .num 1)], [("id", .str "1")]] (.num 1) ∧
      tabPrototype.get
        (tabPrototype.destroy [[("id", .num 1)], [("id", .str "1")]] (.num 1)).tabs (.num 1)
        = .tab [("id", .str "1")]) ∧
    (carriesId [[("id", .num 1), ("title", .str "a")], [("id", .num 1), ("title", .str "b")]]
        (.num 1) ∧
      tabPrototype.get
        (tabPrototype.destroy
          [[("id", .num 1), ("title", .str "a")], [("id", .num 1), ("title", .str "b")]]
          (.num 1)).tabs (.num 1)
        = .tab [("id", .num 1), ("title", .str "b")]) ∧
    (carriesId [[("id", .num 0)]] (.num 0) ∧
      tabPrototype.get (tabPrototype.destroy [[("id", .num 0)]] (.num 0)).tabs (.num 0)
        = .all []) := by
  decide

/-- The operations compare ids with `==`: the string `"1.0"` finds the tab with
the id 1, and the ids 1 and `"1.0"` count as two ids that are `==`. -/
theorem id_comparison_samples :
    tabPrototype.get [[("id", .num 1)]] (.str "1.0") = .tab [("id", .num 1)] ∧
    tabPrototype.getIndex [[("id", .num 1)]] (.str "1.0") = 0 ∧
    (tabPrototype.destroy [[("id", .num 1)]] (.str "1.0")).result = .ok (.num 0) ∧
    (tabPrototype.destroy [[("id", .num 1)]] (.str "1.0")).tabs = [] ∧
    ¬ looselyDistinctIds [[("id", .num 1)], [("id", .str "1.0")]] ∧
    ¬ looselyDistinctIds [[("id", .num 1)], [("id", .str "1")]] ∧
    selectedCount
      (tabPrototype.setSelected [[("id", .num 1)], [("id", .str "1.0")]] (.num 1)).tabs = 2 := by
  decide

/-- C9 (amended): `get(id)` is total.  For a truthy id it returns `undefined`
exactly when no tab has the id, that is exactly when `getIndex(id)` is `-1`, and
otherwise the tab at index `getIndex(id)`, the first tab with the id.  For a
falsy id (such as the number 0) it returns the list of the copies of all tabs. -/
theorem C9_get_by_id (tabs : List Obj) (id : Val) :
    (truthy id = true →
      (tabPrototype.get tabs id = .undefined ↔ ∀ t ∈ tabs, hasId id t = false) ∧
      (tabPrototype.get tabs id = .undefined ↔ tabPrototype.getIndex tabs id = -1) ∧
      (tabPrototype.get tabs id ≠ .undefined →
        ∃ (i : Nat) (t : Obj), tabPrototype.getIndex tabs id = Int.ofNat i ∧
          tabs[i]? = some t ∧ tabPrototype.get tabs id = .tab t ∧ hasId id t = true ∧
          ∀ (j : Nat) (s : Obj), j < i → tabs[j]? = some s → hasId id s = false)) ∧
    (truthy id = false → tabPrototype.get tabs id = .all (tabs.map jsonCopy)) := by
  constructor
  · intro hid
    cases hf : tabPrototype.firstIndexFrom id tabs 0 with
    | none =>
      have hall := (firstIndexFrom_none_iff id tabs 0).1 hf
      have hfind := (find_hasId_none_iff tabs id).2 hall
      have hget : tabPrototype.get tabs id = .undefined := by
        simp [tabPrototype.get, hid, hfind]
      refine ⟨⟨fun _ => hall, fun _ => hget⟩, ⟨fun _ => ?_, fun _ => hget⟩, fun h => absurd hget h⟩
      simp [tabPrototype.getIndex, hf]
    | some i =>
      obtain ⟨pre, t, post, hl, hj, ht, hpre⟩ := firstIndexFrom_some hf
      have hi : i = pre.length := by omega
      have hfind : tabs.find? (hasId id) = some t := by rw [hl]; exact find_of_split hpre ht
      have hget : tabPrototype.get tabs id = .tab t := by
        simp [tabPrototype.get, hid, hfind]
      have htmem : t ∈ tabs := by rw [hl]; simp
      have hidx : tabPrototype.getIndex tabs id = Int.ofNat i := by
        simp [tabPrototype.getIndex, hf]
      refine ⟨⟨fun h => ?_, fun h => ?_⟩, ⟨fun h => ?_, fun h => ?_⟩, fun _ => ?_⟩
      · rw [hget] at h; cases h
      · have := h t htmem
        rw [ht] at this; cases this
      · rw [hget] at h; cases h
      · rw [hidx] at h
        have : (0 : Int) ≤ Int.ofNat i := Int.ofNat_nonneg i
        omega
      · refine ⟨i, t, hidx, ?_, hget, ht, ?_⟩
        · rw [hl, hi, List.getElem?_append_right (le_refl _)]; simp
        · intro j s hji hjs
          rw [hl, List.getElem?_append_left (by omega)] at hjs
          exact hpre s (List.getElem?_mem hjs)
  · intro hid
    simp [tabPrototype.get, hid]

/-- Witness for C9: looking up the id 2 in the list of tabs 1 and 2, and the
id 7, which no tab has. -/
theorem C9_get_by_id_witness :
    tabPrototype.get [[("id", .num 1)], [("id", .num 2)]] (.num 2) ≠ .undefined ∧
    (tabPrototype.get [[("id", .num 1)], [("id", .num 2)]] (.num 7) = .undefined ↔
      tabPrototype.getIndex [[("id", .num 1)], [("id", .num 2)]] (.num 7) = -1) :=
  ⟨by decide,
    ((C9_get_by_id [[("id", .num 1)], [("id", .num 2)]] (.num 7)).1 (by decide)).2.1⟩

/-- C9 (as stated) fails for the numeric id 0: no tab of `[{id: 5}]` has the id 0
and `getIndex(0)` is `-1`, but `get(0)` returns the list of copies; and in
`[{id: 0}]` the tab with id 0 is at index 0, but `get(0)` again returns the list
of copies and not that tab. -/
theorem C9_counterexample :
    (tabPrototype.getIndex [[("id", .num 5)]] (.num 0) = -1 ∧
      tabPrototype.get [[("id", .num 5)]] (.num 0) = .all [[("id", .num 5)]]) ∧
    (tabPrototype.getIndex [[("id", .num 0)]] (.num 0) = 0 ∧
      tabPrototype.get [[("id", .num 0)]] (.num 0) = .all [[("id", .num 0)]]) := by
  decide

/-! ## Copies and live objects -/

theorem getProp_of_not_mem_ownKeys (o : Obj) (k : String) (h : k ∉ ownKeys o) :
    getProp o k = .undefined := by
  induction o with
  | nil => rfl
  | cons p rest ih =>
    obtain ⟨k', v⟩ := p
    simp only [ownKeys, List.map_cons, List.mem_cons, not_or] at h
    simp only [getProp, Ne.symm h.1, if_false]
    exact ih h.2

theorem getProp_jsonCopy (o : Obj) (k : String) : getProp (jsonCopy o) k = getProp o k := by
  have key : ∀ ks : List String,
      getProp (ks.filterMap (fun k =>
        if getProp o k = .undefined then none else some (k, getProp o k))) k =
      if k ∈ ks then getProp o k else .undefined := by
    intro ks
    induction ks with
    | nil => simp [getProp]
    | cons k₀ ks ih =>
      by_cases hu : getProp o k₀ = .undefined
      · simp only [List.filterMap_cons, hu, if_true, ih, List.mem_cons]
        by_cases hk : k = k₀
        · subst hk; simp [hu]
        · simp [hk]
      · simp only [List.filterMap_cons, hu, if_false, getProp, ih, List.mem_cons]
        by_cases hk : k₀ = k
        · subst hk; simp
        · simp [hk, Ne.symm hk]
  unfold jsonCopy
  rw [key]
  by_cases h : k ∈ ownKeys o
  · simp [h]
  · simp [h, getProp_of_not_mem_ownKeys o k h]

theorem agreeBelow_apply {n a : Nat} {h h' : Heap} (hab : Heap.agreeBelow n a h h')
    (c : Change) (hc : c.within a (List.range' n (h'.objects.length - n))) :
    Heap.agreeBelow n a h (h'.apply c) ∧ (h'.apply c).objects.length = h'.objects.length := by
  cases c with
  | object r o =>
    simp only [Change.within, List.mem_range'_1] at hc
    refine ⟨⟨fun r' hr' => ?_, hab.2⟩, by simp [Heap.apply]⟩
    simp only [Heap.apply]
    rw [List.getElem?_set_ne (by omega)]
    exact hab.1 r' hr'
  | array b entries =>
    simp only [Change.within] at hc
    refine ⟨⟨hab.1, fun b' hb' => ?_⟩, by simp [Heap.apply]⟩
    simp only [Heap.apply]
    rw [List.getElem?_set_ne (by omega)]
    exact hab.2 b' hb'

theorem agreeBelow_foldl {n a : Nat} {h : Heap} (cs : List Change) :
    ∀ h' : Heap, Heap.agreeBelow n a h h' →
      (∀ c ∈ cs, c.within a (List.range' n (h'.objects.length - n))) →
      Heap.agreeBelow n a h (cs.foldl Heap.apply h') := by
  induction cs with
  | nil => intro h' hab _; exact hab
  | cons c cs ih =>
    intro h' hab hcs
    obtain ⟨hab', hlen⟩ := agreeBelow_apply hab c (hcs c (List.mem_cons_self _ _))
    apply ih _ hab'
    intro c' hc'
    rw [hlen]
    exact hcs c' (List.mem_cons_of_mem _ hc')

/-- A heap that agrees with `h` on what was allocated in `h` shows the same tab
array with the same tabs. -/
theorem stored_unchanged {h h' : Heap} {this : Nat} (hwf : h.wellFormed this)
    (hab : Heap.agreeBelow h.objects.length h.arrays.length h h') :
    h'.array this = h.array this ∧ (∀ r ∈ h.array this, h'.object r = h.object r) ∧
      h'.tabsOf this = h.tabsOf this := by
  have harr : h'.array this = h.array this := by
    simp only [Heap.array, hab.2 this hwf.1]
  have hobj : ∀ r ∈ h.array this, h'.object r = h.object r := by
    intro r hr
    simp only [Heap.object, hab.1 r (hwf.2 r hr)]
  refine ⟨harr, hobj, ?_⟩
  simp only [Heap.tabsOf, harr]
  exact List.map_congr_left hobj

theorem map_range_append (l c : List Obj) :
    (List.range' l.length c.length).map (fun r => ((l ++ c)[r]?).getD []) = c := by
  induction c generalizing l with
  | nil => simp
  | cons x c ih =>
    have h := ih (l ++ [x])
    simp only [List.length_append, List.length_singleton, List.append_assoc,
      List.singleton_append] at h
    simp only [List.length_cons, List.range'_succ, List.map_cons, h]
    rw [List.getElem?_append_right (le_refl _)]
    simp

theorem find_congr_mem {α : Type} (p q : α → Bool) (l : List α)
    (h : ∀ x ∈ l, p x = q x) : l.find? p = l.find? q := by
  induction l with
  | nil => rfl
  | cons a l ih =>
    simp only [List.find?, h a (List.mem_cons_self _ _)]
    rw [ih (fun x hx => h x (List.mem_cons_of_mem _ hx))]

/-- The contents of what `get` returns on the heap are what `get` returns on
the contents of the tab array. -/
theorem getRef_view (h : Heap) (this : Nat) (id : Val) :
    (tabPrototype.getRef h this id).2.view (tabPrototype.getRef h this id).1 =
      tabPrototype.get (h.tabsOf this) id := by
  by_cases hid : truthy id = true
  · simp only [tabPrototype.getRef, tabPrototype.get, hid, Bool.not_true, Bool.false_eq_true,
      if_false, Heap.tabsOf, List.find?_map]
    cases hf : (h.array this).find? (fun r => hasId id (h.object r)) with
    | none =>
      have : (h.array this).find? (hasId id ∘ h.object) = none := hf
      simp [this, RefResult.view]
    | some r =>
      have : (h.array this).find? (hasId id ∘ h.object) = some r := hf
      simp [this, RefResult.view]
  · have hid' : truthy id = false := by simpa using hid
    simp only [tabPrototype.getRef, tabPrototype.get, hid', Bool.not_false, if_true,
      RefResult.view, Heap.tabsOf, Heap.array, Heap.object]
    rw [List.getElem?_append_right (le_refl _)]
    simp only [Nat.sub_self, List.getElem?_cons_zero, Option.getD_some, List.map_map]
    congr 1
    exact map_range_append h.objects _

/-- C10: `get()` without an id (or with a falsy one) returns a new array of the
same length whose entry at each position reads, under every key, the value of
the stored tab at that position; the call leaves the stored array and its tabs
as they were; and after any later changes to the returned array or to the
objects in it, the stored array and its tabs are still as they were, so every
later `get(id)` returns the same tab with the same contents. -/
theorem C10_get_all_returns_copies (h : Heap) (this : Nat) (id : Val)
    (hwf : h.wellFormed this) (hid : truthy id = false)
    (h₁ : Heap) (res : RefResult) (hget : tabPrototype.getRef h this id = (h₁, res)) :
    ∃ ret, res = .all ret ∧
      (h₁.array ret).length = (h.array this).length ∧
      (∀ (i r c : Nat), (h.array this)[i]? = some r → (h₁.array ret)[i]? = some c →
        ∀ k, getProp (h₁.object c) k = getProp (h.object r) k) ∧
      h₁.array this = h.array this ∧
      (∀ r ∈ h.array this, h₁.object r = h.object r) ∧
      ∀ cs : List Change, (∀ c ∈ cs, c.within ret (h₁.array ret)) →
        (cs.foldl Heap.apply h₁).array this = h.array this ∧
        (∀ r ∈ h.array this, (cs.foldl Heap.apply h₁).object r = h.object r) ∧
        (∀ id', truthy id' = true →
          (tabPrototype.getRef (cs.foldl Heap.apply h₁) this id').2 =
            (tabPrototype.getRef h this id').2) ∧
        (∀ id',
          (tabPrototype.getRef (cs.foldl Heap.apply h₁) this id').2.view
              (tabPrototype.getRef (cs.foldl Heap.apply h₁) this id').1 =
            (tabPrototype.getRef h this id').2.view (tabPrototype.getRef h this id').1) := by
  simp only [tabPrototype.getRef, hid, Bool.not_false, if_true, Prod.mk.injEq] at hget
  obtain ⟨hh₁, hres⟩ := hget
  refine ⟨h.arrays.length, hres.symm, ?_⟩
  have hret : h₁.array h.arrays.length =
      List.range' h.objects.length (h.array this).length := by
    rw [← hh₁]
    simp only [Heap.array]
    rw [List.getElem?_append_right (le_refl _)]
    simp
  have hlen₁ : h₁.objects.length = h.objects.length + (h.array this).length := by
    rw [← hh₁]; simp
  have hab₁ : Heap.agreeBelow h.objects.length h.arrays.length h h₁ := by
    rw [← hh₁]
    exact ⟨fun r hr => List.getElem?_append_left hr, fun b hb => List.getElem?_append_left hb⟩
  have hview := getRef_view h this id
  simp only [tabPrototype.getRef, tabPrototype.get, hid, Bool.not_false, if_true,
    RefResult.view, GetResult.all.injEq, hh₁] at hview
  obtain ⟨hs₁, hs₂, _⟩ := stored_unchanged hwf hab₁
  refine ⟨by rw [hret]; simp, ?_, hs₁, hs₂, ?_⟩
  · intro i r c hir hic k
    have h1 := congrArg (fun l => l[i]?) hview
    simp only [Heap.tabsOf, List.getElem?_map, hic, hir, Option.map_some',
      Option.some.injEq] at h1
    rw [h1]
    exact getProp_jsonCopy _ _
  · intro cs hcs
    have hab₂ : Heap.agreeBelow h.objects.length h.arrays.length h (cs.foldl Heap.apply h₁) := by
      apply agreeBelow_foldl cs h₁ hab₁
      intro c hc
      have := hcs c hc
      rw [hret] at this
      rw [hlen₁, Nat.add_sub_cancel_left]
      exact this
    obtain ⟨ht₁, ht₂, ht₃⟩ := stored_unchanged hwf hab₂
    refine ⟨ht₁, ht₂, ?_, ?_⟩
    · intro id' hid'
      simp only [tabPrototype.getRef, hid', Bool.not_true, Bool.false_eq_true, if_false, ht₁]
      rw [find_congr_mem _ (fun r => hasId id' (h.object r)) (h.array this)
        (fun r hr => by simp only [ht₂ r hr])]
      cases (h.array this).find? (fun r => hasId id' (h.object r)) <;> rfl
    · intro id'
      rw [getRef_view, getRef_view, ht₃]

/-- Witness for C10: a heap with one tab in the tab array, and `get()`. -/
theorem C10_get_all_returns_copies_witness :
    Heap.wellFormed ⟨[[("id", .num 1), ("title", .str "a")]], [[0]]⟩ 0 ∧
    ∃ ret, RefResult.all 1 = .all ret ∧
      (Heap.array ⟨[[("id", .num 1), ("title", .str "a")],
          [("id", .num 1), ("title", .str "a")]], [[0], [1]]⟩ ret).length =
        (Heap.array ⟨[[("id", .num 1), ("title", .str "a")]], [[0]]⟩ 0).length :=
  ⟨by decide,
    (C10_get_all_returns_copies ⟨[[("id", .num 1), ("title", .str "a")]], [[0]]⟩ 0 .undefined
      (by decide) (by decide)
      ⟨[[("id", .num 1), ("title", .str "a")], [("id", .num 1), ("title", .str "a")]], [[0], [1]]⟩
      (.all 1) (by decide)).imp (fun _ hh => ⟨hh.1, hh.2.1⟩)⟩

/-! ## Reordering -/

/-- The position `indexOf` computes: the first position of `x` counted from `i`,
or `-1` when `x` does not occur. -/
theorem indexOfFrom_eq (x : Val) (l : List Val) (i : Nat) :
    tabPrototype.indexOfFrom x l i =
      if x ∈ l then Int.ofNat (i + l.indexOf x) else -1 := by
  induction l generalizing i with
  | nil => simp [tabPrototype.indexOfFrom]
  | cons y l ih =>
    unfold tabPrototype.indexOfFrom
    by_cases h : y = x
    · subst h
      simp [strictEq]
    · have hx : x ≠ y := Ne.symm h
      simp only [strictEq, h, decide_False, Bool.false_eq_true, if_false, ih,
        List.mem_cons, hx, false_or, List.indexOf_cons_ne _ h]
      by_cases hm : x ∈ l
      · simp only [hm, if_true]
        congr 1
        omega
      · simp [hm]

theorem indexOfFrom_ge (x : Val) (l : List Val) : -1 ≤ tabPrototype.indexOfFrom x l 0 := by
  rw [indexOfFrom_eq]
  split
  · have : (0 : Int) ≤ Int.ofNat (0 + l.indexOf x) := Int.ofNat_nonneg _
    omega
  · exact le_refl _

theorem indexOfFrom_eq_neg_one_iff (x : Val) (l : List Val) :
    tabPrototype.indexOfFrom x l 0 = -1 ↔ x ∉ l := by
  rw [indexOfFrom_eq]
  by_cases hm : x ∈ l
  · simp only [hm, if_true, not_true_eq_false, iff_false]
    have : (0 : Int) ≤ Int.ofNat (0 + l.indexOf x) := Int.ofNat_nonneg _
    omega
  · simp [hm]

/-- The order that `reorder` sorts by. -/
theorem compareOrder_le_iff (newOrder : List Val) (a b : Obj) :
    tabPrototype.compareOrder newOrder a b ≤ 0 ↔
      tabPrototype.indexOfFrom (getProp a "id") newOrder 0 ≤
        tabPrototype.indexOfFrom (getProp b "id") newOrder 0 := by
  unfold tabPrototype.compareOrder
  omega

theorem reorder_sorted (tabs : List Obj) (newOrder : List Val) :
    (tabPrototype.reorder tabs newOrder).Pairwise
      (fun a b => tabPrototype.compareOrder newOrder a b ≤ 0) := by
  haveI : IsTotal Obj (fun a b => tabPrototype.compareOrder newOrder a b ≤ 0) :=
    ⟨fun a b => by
      simp only [compareOrder_le_iff]
      exact le_total _ _⟩
  haveI : IsTrans Obj (fun a b => tabPrototype.compareOrder newOrder a b ≤ 0) :=
    ⟨fun a b c hab hbc => by
      simp only [compareOrder_le_iff] at hab hbc ⊢
      exact le_trans hab hbc⟩
  exact List.sorted_insertionSort _ tabs

theorem reorder_perm (tabs : List Obj) (newOrder : List Val) :
    (tabPrototype.reorder tabs newOrder).Perm tabs :=
  List.perm_insertionSort _ tabs

/-- C20: the list after `reorder(newOrder)` is a permutation of the list before,
for every `newOrder`: the count is the same, and every tab object occurs as often
as before, with all its fields. -/
theorem C20_reorder_is_permutation (tabs : List Obj) (newOrder : List Val) :
    (tabPrototype.reorder tabs newOrder).Perm tabs ∧
    tabPrototype.count (tabPrototype.reorder tabs newOrder) = tabPrototype.count tabs ∧
    ∀ t : Obj, (tabPrototype.reorder tabs newOrder).countP (fun s => decide (s = t)) =
      tabs.countP (fun s => decide (s = t)) :=
  ⟨reorder_perm tabs newOrder, (reorder_perm tabs newOrder).length_eq,
    fun _ => (reorder_perm tabs newOrder).countP_eq _⟩

theorem looseEq_false_ne {a b : Val} (h : looseEq a b = false) : a ≠ b := by
  intro hab
  rw [hab, looseEq_refl] at h
  cases h

theorem idsOf_nodup {tabs : List Obj} (hd : looselyDistinctIds tabs) : (idsOf tabs).Nodup := by
  unfold idsOf List.Nodup
  rw [List.pairwise_map]
  exact List.Pairwise.imp (fun h => looseEq_false_ne h) hd

theorem map_indexOfFrom_of_nodup (l : List Val) (hn : l.Nodup) :
    l.map (fun x => tabPrototype.indexOfFrom x l 0) = (List.range' 0 l.length).map Int.ofNat := by
  have key : ∀ (l : List Val), l.Nodup → ∀ i : Nat,
      l.map (fun x => tabPrototype.indexOfFrom x l i) =
        (List.range' i l.length).map Int.ofNat := by
    intro l
    induction l with
    | nil => intro _ i; simp
    | cons y l ih =>
      intro hn i
      rw [List.nodup_cons] at hn
      simp only [List.map_cons, List.length_cons, List.range'_succ]
      congr 1
      · simp [tabPrototype.indexOfFrom, strictEq]
      · rw [← ih hn.2 (i + 1)]
        apply List.map_congr_left
        intro x hx
        have hyx : y ≠ x := fun h => hn.1 (h ▸ hx)
        simp [tabPrototype.indexOfFrom, strictEq, hyx]
  exact key l hn 0

theorem eq_of_map_eq_of_injOn {α β : Type} (f : α → β) :
    ∀ (m n : List α), (∀ x ∈ m, ∀ y ∈ n, f x = f y → x = y) → m.map f = n.map f → m = n := by
  intro m
  induction m with
  | nil => intro n _ h; cases n with
    | nil => rfl
    | cons _ _ => simp at h
  | cons a m ih =>
    intro n hinj h
    cases n with
    | nil => simp at h
    | cons b n =>
      simp only [List.map_cons, List.cons.injEq] at h
      have hab := hinj a (List.mem_cons_self _ _) b (List.mem_cons_self _ _) h.1
      rw [hab, ih n (fun x hx y hy => hinj x (List.mem_cons_of_mem _ hx) y
        (List.mem_cons_of_mem _ hy)) h.2]

theorem indexOfFrom_inj {l : List Val} {x y : Val} (hx : x ∈ l) (hy : y ∈ l)
    (h : tabPrototype.indexOfFrom x l 0 = tabPrototype.indexOfFrom y l 0) : x = y := by
  rw [indexOfFrom_eq, indexOfFrom_eq, if_pos hx, if_pos hy] at h
  have h' : l.indexOf x = l.indexOf y := by
    have := Int.ofNat.inj h
    omega
  have hxl := List.indexOf_lt_length.2 hx
  have h1 := List.indexOf_get hxl
  have hyl := List.indexOf_lt_length.2 hy
  have h2 := List.indexOf_get hyl
  rw [← h1, ← h2]
  congr 1
  exact Fin.ext h'

/-- C11: on a tab list with pairwise distinct ids, after `reorder(newOrder)` with a
`newOrder` that is a permutation of the ids of the list, the ids read from the
list are `newOrder`. -/
theorem C11_reorder_yields_new_order (tabs : List Obj) (newOrder : List Val)
    (hd : (idsOf tabs).Nodup) (hp : (idsOf tabs).Perm newOrder) :
    idsOf (tabPrototype.reorder tabs newOrder) = newOrder := by
  have hnodup : newOrder.Nodup := (hp.nodup_iff).1 hd
  have hperm : (idsOf (tabPrototype.reorder tabs newOrder)).Perm newOrder :=
    ((reorder_perm tabs newOrder).map _).trans hp
  have hs₁ : ((idsOf (tabPrototype.reorder tabs newOrder)).map
      (fun x => tabPrototype.indexOfFrom x newOrder 0)).Sorted (· ≤ ·) := by
    unfold idsOf List.Sorted
    rw [List.pairwise_map, List.pairwise_map]
    exact List.Pairwise.imp (fun h => (compareOrder_le_iff _ _ _).1 h)
      (reorder_sorted tabs newOrder)
  have hs₂ : (newOrder.map (fun x => tabPrototype.indexOfFrom x newOrder 0)).Sorted (· ≤ ·) := by
    rw [map_indexOfFrom_of_nodup newOrder hnodup]
    unfold List.Sorted
    rw [List.pairwise_map]
    exact List.Pairwise.imp (fun h => Int.ofNat_le.2 h) (List.pairwise_le_range' 0 _)
  have hmap := List.eq_of_perm_of_sorted (hperm.map _) hs₁ hs₂
  apply eq_of_map_eq_of_injOn _ _ _ _ hmap
  intro x hx y hy hxy
  exact indexOfFrom_inj (hperm.mem_iff.1 hx) hy hxy

/-- Witness for C11: the tabs 1, 2, 3 and the order 3, 1, 2; and the tabs with
the different ids `1` and `"1"`, which are `==`, and the order `"1"`, `1`. -/
theorem C11_reorder_yields_new_order_witness :
    ((idsOf [[("id", .num 1)], [("id", .num 2)], [("id", .num 3)]]).Nodup ∧
      idsOf (tabPrototype.reorder [[("id", .num 1)], [("id", .num 2)], [("id", .num 3)]]
        [.num 3, .num 1, .num 2]) = [.num 3, .num 1, .num 2]) ∧
    ((idsOf [[("id", .num 1)], [("id", .str "1")]]).Nodup ∧
      idsOf (tabPrototype.reorder [[("id", .num 1)], [("id", .str "1")]]
        [.str "1", .num 1]) = [.str "1", .num 1]) :=
  ⟨⟨by decide,
      C11_reorder_yields_new_order [[("id", .num 1)], [("id", .num 2)], [("id", .num 3)]]
        [.num 3, .num 1, .num 2] (by decide) (by decide)⟩,
    ⟨by decide,
      C11_reorder_yields_new_order [[("id", .num 1)], [("id", .str "1")]]
        [.str "1", .num 1] (by decide) (by decide)⟩⟩

/-- A list sorted by a relation under which nothing outside `p` comes before
something in `p` is its `p`-part followed by the rest. -/
theorem sorted_split {α : Type} (r : α → α → Prop) (p : α → Bool)
    (hp : ∀ a b, r a b → p b = true → p a = true) :
    ∀ l : List α, l.Pairwise r → l = l.filter p ++ l.filter (fun a => !p a) := by
  intro l
  induction l with
  | nil => intro _; rfl
  | cons a l ih =>
    intro h
    rw [List.pairwise_cons] at h
    by_cases ha : p a = true
    · simp only [List.filter_cons, ha, if_true, Bool.not_true, Bool.false_eq_true, if_false,
        List.cons_append]
      rw [← ih h.2]
    · have hnone : ∀ b ∈ l, ¬ p b = true := fun b hb hpb => ha (hp a b (h.1 b hb) hpb)
      have h1 : l.filter p = [] := List.filter_eq_nil_iff.2 hnone
      have h2 : l.filter (fun a => !p a) = l :=
        List.filter_eq_self.2 (fun b hb => by simpa using hnone b hb)
      simp [List.filter_cons, ha, h1, h2]

/-- C12: after `reorder(newOrder)` the list is the tabs whose id does not occur in
`newOrder`, in their previous order, followed by the tabs whose id occurs, and
these are in non-decreasing order of the first position of their id in
`newOrder`. -/
theorem C12_reorder_absent_first (tabs : List Obj) (newOrder : List Val) :
    ∃ present : List Obj,
      tabPrototype.reorder tabs newOrder =
        tabs.filter (fun t => !occursIn newOrder t) ++ present ∧
      (∀ t ∈ present, getProp t "id" ∈ newOrder) ∧
      present.Pairwise (fun a b =>
        newOrder.indexOf (getProp a "id") ≤ newOrder.indexOf (getProp b "id")) ∧
      present.Perm (tabs.filter (occursIn newOrder)) := by
  have hsorted := reorder_sorted tabs newOrder
  have hperm := reorder_perm tabs newOrder
  have habs : ∀ t : Obj, (!occursIn newOrder t) = true ↔
      tabPrototype.indexOfFrom (getProp t "id") newOrder 0 = -1 := by
    intro t
    rw [indexOfFrom_eq_neg_one_iff]
    simp [occursIn]
  have hsplit := sorted_split (fun a b => tabPrototype.compareOrder newOrder a b ≤ 0)
    (fun t => !occursIn newOrder t)
    (fun a b hab hb => by
      rw [habs] at hb ⊢
      have hab' := (compareOrder_le_iff newOrder a b).1 hab
      rw [hb] at hab'
      have := indexOfFrom_ge (getProp a "id") newOrder
      omega)
    _ hsorted
  have hfront : (tabPrototype.reorder tabs newOrder).filter (fun t => !occursIn newOrder t) =
      tabs.filter (fun t => !occursIn newOrder t) := by
    have hpw : (tabs.filter (fun t => !occursIn newOrder t)).Pairwise
        (fun a b => tabPrototype.compareOrder newOrder a b ≤ 0) := by
      rw [List.pairwise_iff_forall_sublist]
      intro a b hab
      have ha := (habs a).1 (List.mem_filter.1 (hab.subset (by simp))).2
      have hb := (habs b).1 (List.mem_filter.1 (hab.subset (by simp))).2
      rw [compareOrder_le_iff, ha, hb]
    have hsub : List.Sublist (tabs.filter (fun t => !occursIn newOrder t))
        (tabPrototype.reorder tabs newOrder) :=
      List.sublist_insertionSort hpw (List.filter_sublist _)
    have hsub' := hsub.filter (fun t => !occursIn newOrder t)
    rw [List.filter_filter] at hsub'
    simp only [Bool.and_self] at hsub'
    exact (hsub'.eq_of_length (hperm.filter _).length_eq.symm).symm
  refine ⟨(tabPrototype.reorder tabs newOrder).filter
    (fun t => !(fun t => !occursIn newOrder t) t), ?_, ?_, ?_, ?_⟩
  · rw [← hfront]; exact hsplit
  · intro t ht
    have := (List.mem_filter.1 ht).2
    simpa [occursIn] using this
  · apply List.Pairwise.imp_of_mem _ (hsorted.filter _)
    intro a b ha hb hab
    have ha' : getProp a "id" ∈ newOrder := by
      simpa [occursIn] using (List.mem_filter.1 ha).2
    have hb' : getProp b "id" ∈ newOrder := by
      simpa [occursIn] using (List.mem_filter.1 hb).2
    have hab' := (compareOrder_le_iff newOrder a b).1 hab
    rw [indexOfFrom_eq, indexOfFrom_eq, if_pos ha', if_pos hb'] at hab'
    have := Int.ofNat_le.1 hab'
    omega
  · have := hperm.filter (occursIn newOrder)
    simpa using this


/-! ## Adding a tab -/

theorem getProp_newTab_id (tab : Obj) (tabId : Val) (now : Int) :
    getProp (tabPrototype.newTab tab tabId now) "id" = tabId := by
  simp only [tabPrototype.newTab, getProp]
  simp only [show ("url" = "id") = False from by decide,
    show ("title" = "id") = False from by decide, if_false, if_true]

/-- What `add` leaves and returns: the new tab spliced in for a non-zero index and
pushed otherwise, and the id of the new tab. -/
theorem add_eq (tabs : List Obj) (tab : Option Obj) (index : Option Int) (now : Int)
    (random : Nat) :
    tabPrototype.add tabs tab index now random =
      ⟨match index with
        | some i =>
          if i ≠ 0 then tabPrototype.spliceInsert tabs i (addedTab tab now random)
          else tabs ++ [addedTab tab now random]
        | none => tabs ++ [addedTab tab now random],
      .ok (getProp (addedTab tab now random) "id")⟩ := by
  have hid : getProp (addedTab tab now random) "id" =
      orElse (getProp (tab.getD []) "id") (.num random) := getProp_newTab_id _ _ _
  rw [hid]
  cases tab <;> cases index <;> simp only [tabPrototype.add, addedTab, Option.getD]
    <;> split <;> rfl

theorem getElem?_insert_lt (tabs : List Obj) (t : Obj) (i j : Nat) (hi : i ≤ tabs.length)
    (hj : j < i) : (tabs.take i ++ t :: tabs.drop i)[j]? = tabs[j]? := by
  rw [List.getElem?_append_left (by simp; omega), List.getElem?_take_of_lt hj]

theorem getElem?_insert_eq (tabs : List Obj) (t : Obj) (i : Nat) (hi : i ≤ tabs.length) :
    (tabs.take i ++ t :: tabs.drop i)[i]? = some t := by
  rw [List.getElem?_append_right (by simp)]
  simp [Nat.min_eq_left hi]

theorem getElem?_insert_gt (tabs : List Obj) (t : Obj) (i j : Nat) (hi : i ≤ tabs.length)
    (hj : i ≤ j) : (tabs.take i ++ t :: tabs.drop i)[j + 1]? = tabs[j]? := by
  rw [List.getElem?_append_right (by simp; omega)]
  have : j + 1 - (tabs.take i).length = (j - i) + 1 := by
    simp [Nat.min_eq_left hi]; omega
  rw [this, List.getElem?_cons_succ, List.getElem?_drop]
  congr 1
  omega

/-- C13: on a list of `n` tabs, `add(tab, i)` with `1 ≤ i ≤ n` leaves the new tab
at position `i`, the former tabs before `i` in place and the former tabs from `i`
on one position later; `add(tab)` and `add(tab, 0)` leave the new tab at position
`n` and the former tabs in place; in each case the count becomes `n + 1` and the
value returned is the id of the new tab. -/
theorem C13_add_positions (tabs : List Obj) (tab : Option Obj) (now : Int) (random : Nat) :
    (∀ i : Nat, 1 ≤ i → i ≤ tabs.length →
      (tabPrototype.add tabs tab (some (i : Int)) now random).tabs[i]? =
        some (addedTab tab now random) ∧
      (∀ j : Nat, j < i →
        (tabPrototype.add tabs tab (some (i : Int)) now random).tabs[j]? = tabs[j]?) ∧
      (∀ j : Nat, i ≤ j →
        (tabPrototype.add tabs tab (some (i : Int)) now random).tabs[j + 1]? = tabs[j]?) ∧
      tabPrototype.count (tabPrototype.add tabs tab (some (i : Int)) now random).tabs =
        tabs.length + 1 ∧
      (tabPrototype.add tabs tab (some (i : Int)) now random).result =
        .ok (getProp (addedTab tab now random) "id")) ∧
    (∀ index : Option Int, index = none ∨ index = some 0 →
      (tabPrototype.add tabs tab index now random).tabs[tabs.length]? =
        some (addedTab tab now random) ∧
      (∀ j : Nat, j < tabs.length →
        (tabPrototype.add tabs tab index now random).tabs[j]? = tabs[j]?) ∧
      tabPrototype.count (tabPrototype.add tabs tab index now random).tabs =
        tabs.length + 1 ∧
      (tabPrototype.add tabs tab index now random).result =
        .ok (getProp (addedTab tab now random) "id")) := by
  constructor
  · intro i hi1 hin
    have hne : (i : Int) ≠ 0 := by omega
    have hsplice : tabPrototype.spliceInsert tabs (i : Int) (addedTab tab now random) =
        tabs.take i ++ addedTab tab now random :: tabs.drop i := by
      have hnn : ¬ ((i : Int) < 0) := by omega
      simp only [tabPrototype.spliceInsert, hnn, if_false, Int.toNat_ofNat,
        Nat.min_eq_left hin]
    rw [add_eq]
    simp only [hne, ne_eq, not_false_eq_true, if_true, hsplice]
    refine ⟨getElem?_insert_eq _ _ _ hin, fun j hj => getElem?_insert_lt _ _ _ _ hin hj,
      fun j hj => getElem?_insert_gt _ _ _ _ hin hj, ?_, trivial⟩
    simp [tabPrototype.count, Nat.min_eq_left hin]
    omega
  · intro index hindex
    have hpush : (tabPrototype.add tabs tab index now random) =
        ⟨tabs ++ [addedTab tab now random], .ok (getProp (addedTab tab now random) "id")⟩ := by
      rw [add_eq]
      rcases hindex with rfl | rfl <;> simp
    rw [hpush]
    refine ⟨?_, fun j hj => List.getElem?_append_left hj, by simp [tabPrototype.count], rfl⟩
    rw [List.getElem?_append_right (le_refl _)]
    simp

/-- Witness for C13: adding a tab with id 9 at index 1 of the list of tabs 1, 2. -/
theorem C13_add_positions_witness :
    (tabPrototype.add [[("id", .num 1)], [("id", .num 2)]] (some [("id", .num 9)])
        (some 1) 0 5).result = .ok (.num 9) ∧
    idsOf (tabPrototype.add [[("id", .num 1)], [("id", .num 2)]] (some [("id", .num 9)])
        (some 1) 0 5).tabs = [.num 1, .num 9, .num 2] ∧
    tabPrototype.count (tabPrototype.add [[("id", .num 1)], [("id", .num 2)]]
        (some [("id", .num 9)]) (some ((1 : Nat) : Int)) 0 5).tabs = 2 + 1 :=
  ⟨by decide, by decide,
    ((C13_add_positions [[("id", .num 1)], [("id", .num 2)]] (some [("id", .num 9)]) 0 5).1 1
      (by decide) (by decide)).2.2.2.1⟩

/-- When the input tab carries a truthy id, `add` returns exactly that id, the tab
it stores has that id, and the outcome does not depend on the value of the random
generator. -/
theorem add_keeps_truthy_id (tabs : List Obj) (tab : Obj) (index : Option Int)
    (now : Int) (random : Nat) (h : truthy (getProp tab "id") = true) :
    (tabPrototype.add tabs (some tab) index now random).result = .ok (getProp tab "id") ∧
    addedTab (some tab) now random ∈ (tabPrototype.add tabs (some tab) index now random).tabs ∧
    getProp (addedTab (some tab) now random) "id" = getProp tab "id" ∧
    ∀ random' : Nat, tabPrototype.add tabs (some tab) index now random' =
      tabPrototype.add tabs (some tab) index now random := by
  have hid : ∀ r : Nat, orElse (getProp tab "id") (.num r) = getProp tab "id" := by
    intro r; simp [orElse, h]
  have hadded : ∀ r : Nat, addedTab (some tab) now r =
      tabPrototype.newTab tab (getProp tab "id") now := by
    intro r; simp [addedTab, hid]
  have hprop : getProp (addedTab (some tab) now random) "id" = getProp tab "id" := by
    rw [hadded, getProp_newTab_id]
  refine ⟨?_, ?_, hprop, ?_⟩
  · rw [add_eq, hprop]
  · rw [add_eq]
    cases index with
    | none => simp
    | some i =>
      by_cases hi : i = 0
      · simp [hi]
      · simp [hi, tabPrototype.spliceInsert]
  · intro random'
    rw [add_eq, add_eq, hadded random', hadded random]

/-- When the input tab carries a falsy id (the number 0, the empty string, `null`,
`false`) or no id, `add` returns the value of the random generator and stores the
tab under that value: the id passed is not used. -/
theorem add_replaces_falsy_id (tabs : List Obj) (tab : Obj) (index : Option Int)
    (now : Int) (random : Nat) (h : truthy (getProp tab "id") = false) :
    (tabPrototype.add tabs (some tab) index now random).result = .ok (.num random) ∧
    addedTab (some tab) now random ∈ (tabPrototype.add tabs (some tab) index now random).tabs ∧
    getProp (addedTab (some tab) now random) "id" = .num random := by
  have hid : orElse (getProp tab "id") (.num random) = .num random := by
    simp [orElse, h]
  have hprop : getProp (addedTab (some tab) now random) "id" = .num random := by
    simp only [addedTab, Option.getD, hid, getProp_newTab_id]
  refine ⟨?_, ?_, hprop⟩
  · rw [add_eq, hprop]
  · rw [add_eq]
    cases index with
    | none => simp
    | some i =>
      by_cases hi : i = 0
      · simp [hi]
      · simp [hi, tabPrototype.spliceInsert]

/-- C14: evaluation at the failing input.  The input tab `{id: 0}` carries the
numeric id 0; `add`, with the random generator giving 42, returns 42 and stores
the tab under the id 42, so that no tab of the list has the id 0. -/
theorem C14_add_id_zero_replaced :
    getProp [("id", Val.num 0)] "id" = .num 0 ∧
    (tabPrototype.add [] (some [("id", .num 0)]) none 0 42).result = .ok (.num 42) ∧
    idsOf (tabPrototype.add [] (some [("id", .num 0)]) none 0 42).tabs = [.num 42] ∧
    tabPrototype.getIndex (tabPrototype.add [] (some [("id", .num 0)]) none 0 42).tabs
      (.num 0) = -1 := by
  decide

/-! ## The helper predicate `isEmpty` -/

theorem looseEq_about_blank (v : Val) :
    looseEq v (.str "about:blank") = true ↔ v = .str "about:blank" := by
  have h : stringToNumber "about:blank" = none := by decide
  cases v <;> simp [looseEq, h]

/-- C15 (amended): `isEmpty(list)` is true exactly when the list has no tab, or
has one tab whose `url` is falsy or is `"about:blank"`; for a tab whose `url` is a
string, falsy means the empty string; and it is false for every list of two or
more tabs. -/
theorem C15_isEmpty_iff (tabList : List Obj) :
    (isEmpty (some tabList) = true ↔
      tabList = [] ∨ ∃ t, tabList = [t] ∧
        (truthy (getProp t "url") = false ∨ getProp t "url" = .str "about:blank")) ∧
    (∀ (t : Obj) (s : String), getProp t "url" = .str s →
      (isEmpty (some [t]) = true ↔ s = "" ∨ s = "about:blank")) ∧
    (2 ≤ tabList.length → isEmpty (some tabList) = false) ∧
    isEmpty (some []) = true ∧
    isEmpty (some [[("url", .str "about:blank")]]) = true ∧
    isEmpty (some [[("url", .str "https://example.com")]]) = false ∧
    isEmpty (some [[("url", .str "")], [("url", .str "")]]) = false := by
  have hone : ∀ t : Obj, isEmpty (some [t]) = true ↔
      (truthy (getProp t "url") = false ∨ getProp t "url" = .str "about:blank") := by
    intro t
    simp [isEmpty, looseEq_about_blank]
  refine ⟨?_, ?_, ?_, by decide, by decide, by decide, by decide⟩
  · cases tabList with
    | nil => simp [isEmpty]
    | cons a l =>
      cases l with
      | nil => simp [hone]
      | cons b l => simp [isEmpty]
  · intro t s hs
    rw [hone, hs]
    simp [truthy]
  · intro h
    cases tabList with
    | nil => simp at h
    | cons a l =>
      cases l with
      | nil => simp at h
      | cons b l => simp [isEmpty]

/-- C15 (as stated) fails: the list of the one tab `{id: 1}`, which has no `url`,
is empty for `isEmpty`, and so is the list of one tab with `url: 0`; neither url
is the empty string or `"about:blank"`. -/
theorem C15_counterexample :
    (isEmpty (some [[("id", .num 1)]]) = true ∧
      getProp [("id", Val.num 1)] "url" ≠ .str "" ∧
      getProp [("id", Val.num 1)] "url" ≠ .str "about:blank") ∧
    (isEmpty (some [[("id", .num 1), ("url", .num 0)]]) = true ∧
      getProp [("id", Val.num 1), ("url", Val.num 0)] "url" ≠ .str "" ∧
      getProp [("id", Val.num 1), ("url", Val.num 0)] "url" ≠ .str "about:blank") := by
  decide

/-- Witness for C15: a tab whose url is the string `"about:blank"`. -/
theorem C15_isEmpty_iff_witness :
    getProp [("url", Val.str "about:blank")] "url" = .str "about:blank" ∧
    (isEmpty (some [[("url", .str "about:blank")]]) = true ↔
      "about:blank" = "" ∨ "about:blank" = "about:blank") :=
  ⟨by decide,
    (C15_isEmpty_iff []).2.1 [("url", .str "about:blank")] "about:blank" (by decide)⟩

/-! ## The selected tab -/

theorem find_append_first {α : Type} (p : α → Bool) {pre post : List α} {t : α}
    (hpre : ∀ s ∈ pre, p s = false) (ht : p t = true) :
    (pre ++ t :: post).find? p = some t := by
  induction pre with
  | nil => simp [List.find?, ht]
  | cons a l ih =>
    have ha := hpre a (List.mem_cons_self _ _)
    simp only [List.cons_append, List.find?, ha]
    exact ih (fun s hs => hpre s (List.mem_cons_of_mem _ hs))

theorem setSelected_tabs_of_carries {tabs : List Obj} {id : Val} (hc : carriesId tabs id) :
    tabPrototype.setSelected tabs id =
      ⟨tabs.map (fun t =>
        if hasId id t then setProp t "selected" (.bool true)
        else setProp t "selected" (.bool false)), .ok ()⟩ := by
  unfold tabPrototype.setSelected
  simp only [get_truthy_of_carries hc, Bool.not_true, Bool.false_eq_true, if_false]

/-- After the loop of `setSelected` on a list without two ids `==`, every selected
tab has `selected = true` and carries the id. -/
theorem selected_after_select {tabs : List Obj} {id : Val} (hd : looselyDistinctIds tabs)
    (hc : carriesId tabs id) {t : Obj}
    (ht : t ∈ tabs.map (fun t =>
        if hasId id t then setProp t "selected" (.bool true)
        else setProp t "selected" (.bool false)))
    (hsel : isSelected t = true) :
    getProp t "selected" = .bool true ∧ getProp t "id" = id := by
  obtain ⟨s, hs, rfl⟩ := List.mem_map.1 ht
  rw [isSelected_select] at hsel
  have hsid := id_eq_of_hasId hd hc hs hsel
  simp only [hsel, if_true]
  refine ⟨getProp_setProp_same _ _ _, ?_⟩
  rw [getProp_setProp_ne _ _ _ _ (by decide)]
  exact hsid

theorem getSelected_of_unique {l : List Obj} {id : Val} (hpos : 0 < selectedCount l)
    (hall : ∀ t ∈ l, isSelected t = true → getProp t "id" = id) :
    tabPrototype.getSelected l = id := by
  unfold tabPrototype.getSelected
  cases hf : l.find? isSelected with
  | none =>
    rw [List.find?_eq_none] at hf
    obtain ⟨a, ha, hpa⟩ := List.countP_pos_iff.1 hpos
    exact absurd hpa (hf a ha)
  | some t =>
    exact hall t (List.mem_of_find?_eq_some hf) (List.find?_some hf)

/-- C16 (amended): `getSelected()` returns `null` when no tab is selected and
otherwise the id of the first selected tab, so that, when no tab has the id
`null`, it returns `null` exactly when no tab is selected; `getSelected()` right
after `setSelected(id)` with the id of a tab of the list returns a value that is
`==` to `id`, and returns `id` itself when no two ids of the list are `==`. -/
theorem C16_getSelected (tabs : List Obj) :
    ((∀ t ∈ tabs, isSelected t = false) → tabPrototype.getSelected tabs = .null) ∧
    (∀ (pre : List Obj) (t : Obj) (post : List Obj), tabs = pre ++ t :: post →
      (∀ s ∈ pre, isSelected s = false) → isSelected t = true →
      tabPrototype.getSelected tabs = getProp t "id") ∧
    ((∀ t ∈ tabs, getProp t "id" ≠ .null) →
      (tabPrototype.getSelected tabs = .null ↔ ∀ t ∈ tabs, isSelected t = false)) ∧
    (∀ id : Val, carriesId tabs id →
      looseEq (tabPrototype.getSelected (tabPrototype.setSelected tabs id).tabs) id = true) ∧
    (∀ id : Val, looselyDistinctIds tabs → carriesId tabs id →
      tabPrototype.getSelected (tabPrototype.setSelected tabs id).tabs = id) := by
  have hnone : (∀ t ∈ tabs, isSelected t = false) → tabPrototype.getSelected tabs = .null := by
    intro h
    have : tabs.find? isSelected = none := by
      rw [List.find?_eq_none]
      intro t ht
      simp [h t ht]
    simp [tabPrototype.getSelected, this]
  refine ⟨hnone, ?_, ?_, ?_, ?_⟩
  · intro pre t post hl hpre ht
    simp [tabPrototype.getSelected, hl, find_append_first isSelected hpre ht]
  · intro hid
    refine ⟨fun hnull => ?_, hnone⟩
    unfold tabPrototype.getSelected at hnull
    cases hf : tabs.find? isSelected with
    | none =>
      rw [List.find?_eq_none] at hf
      intro t ht
      simpa using hf t ht
    | some t =>
      rw [hf] at hnull
      exact absurd hnull (hid t (List.mem_of_find?_eq_some hf))
  · intro id hc
    rw [setSelected_tabs_of_carries hc]
    have hcomp : (isSelected ∘ fun t =>
        if hasId id t then setProp t "selected" (.bool true)
        else setProp t "selected" (.bool false)) = hasId id := by
      funext t
      exact isSelected_select id t
    simp only [tabPrototype.getSelected, List.find?_map, hcomp]
    cases hf : tabs.find? (hasId id) with
    | none =>
      obtain ⟨t, ht, hid⟩ := hasId_of_carries hc
      have := (find_hasId_none_iff tabs id).1 hf t ht
      rw [hid] at this
      cases this
    | some t =>
      have ht := List.find?_some hf
      simp only [Option.map_some', ht, if_true]
      rw [getProp_setProp_ne _ _ _ _ (by decide)]
      exact ht
  · intro id hd hc
    rw [setSelected_tabs_of_carries hc]
    apply getSelected_of_unique
    · rw [selectedCount_map_select, countP_hasId_eq_one hd hc]
      exact Nat.one_pos
    · intro t ht hsel
      exact (selected_after_select hd hc ht hsel).2

/-- Witness for C16: selecting tab 2 of the tabs 1, 2, and a list without a
selected tab. -/
theorem C16_getSelected_witness :
    tabPrototype.getSelected [[("id", .num 1)], [("id", .num 2)]] = .null ∧
    tabPrototype.getSelected
      (tabPrototype.setSelected [[("id", .num 1)], [("id", .num 2)]] (.num 2)).tabs = .num 2 :=
  ⟨(C16_getSelected [[("id", .num 1)], [("id", .num 2)]]).1 (by decide),
    (C16_getSelected [[("id", .num 1)], [("id", .num 2)]]).2.2.2.2 (.num 2) (by decide)
      (by decide)⟩

/-- C16 (as stated) fails: in the list of the tabs with ids `"1"` and `1`, the id
`1` is the id of a tab, but `getSelected()` right after `setSelected(1)` returns
`"1"`; and for the one selected tab `{id: null, selected: true}`, `getSelected()`
returns `null`. -/
theorem C16_counterexample :
    (carriesId [[("id", .str "1")], [("id", .num 1)]] (.num 1) ∧
      tabPrototype.getSelected
        (tabPrototype.setSelected [[("id", .str "1")], [("id", .num 1)]] (.num 1)).tabs
        = .str "1") ∧
    (isSelected [("id", .null), ("selected", .bool true)] = true ∧
      tabPrototype.getSelected [[("id", .null), ("selected", .bool true)]] = .null) := by
  decide

/-! ## Selecting one tab and destroying another -/

theorem getProp_id_select (id : Val) (t : Obj) :
    getProp (if hasId id t then setProp t "selected" (.bool true)
      else setProp t "selected" (.bool false)) "id" = getProp t "id" := by
  split <;> exact getProp_setProp_ne _ _ _ _ (by decide)

/-- C19 (amended): on a tab list no two of whose ids are `==` and for two different ids `a`
and `b` of tabs in it, `setSelected(b)` returns without error, and after the
following `destroy(a)` the list has one tab fewer, the tab with id `b` is in it
with `selected = true`, `getSelected()` returns `b`, and exactly one tab is
selected, every selected tab having the id `b`. -/
theorem C19_select_then_destroy (tabs : List Obj) (a b : Val) (hd : looselyDistinctIds tabs)
    (ha : carriesId tabs a) (hb : carriesId tabs b) (hab : a ≠ b) :
    (tabPrototype.setSelected tabs b).result = .ok () ∧
    tabPrototype.count (selectThenDestroy tabs a b) + 1 = tabPrototype.count tabs ∧
    (∃ t ∈ selectThenDestroy tabs a b,
      getProp t "id" = b ∧ getProp t "selected" = .bool true) ∧
    tabPrototype.getSelected (selectThenDestroy tabs a b) = b ∧
    selectedCount (selectThenDestroy tabs a b) = 1 ∧
    (∀ t ∈ selectThenDestroy tabs a b, isSelected t = true → getProp t "id" = b) := by
  have hset := setSelected_tabs_of_carries hb
  have hds : looselyDistinctIds (tabs.map (fun t =>
      if hasId b t then setProp t "selected" (.bool true)
      else setProp t "selected" (.bool false))) := by
    unfold looselyDistinctIds
    rw [List.pairwise_map]
    simp only [getProp_id_select]
    exact hd
  have has : carriesId (tabs.map (fun t =>
      if hasId b t then setProp t "selected" (.bool true)
      else setProp t "selected" (.bool false))) a := by
    obtain ⟨t, ht, hid⟩ := ha
    exact ⟨_, List.mem_map.2 ⟨t, ht, rfl⟩, by rw [getProp_id_select]; exact hid⟩
  obtain ⟨pre, ta, post, hl, hfirst, hida, _, _⟩ := split_of_distinct hds has
  have hdestroy : selectThenDestroy tabs a b = pre ++ post := by
    simp only [selectThenDestroy, hset, tabPrototype.destroy, hfirst]
    rw [hl, List.eraseIdx_append_of_length_le (le_refl _)]
    simp
  have hsub : ∀ t ∈ pre ++ post, t ∈ tabs.map (fun t =>
      if hasId b t then setProp t "selected" (.bool true)
      else setProp t "selected" (.bool false)) := by
    intro t ht
    rw [hl]
    rcases List.mem_append.1 ht with h | h
    · exact List.mem_append_left _ h
    · exact List.mem_append_right _ (List.mem_cons_of_mem _ h)
  have hta : isSelected ta = false := by
    cases hsel : isSelected ta with
    | false => rfl
    | true =>
      have hmem : ta ∈ tabs.map (fun t =>
          if hasId b t then setProp t "selected" (.bool true)
          else setProp t "selected" (.bool false)) := by rw [hl]; simp
      have := (selected_after_select hd hb hmem hsel).2
      exact absurd (hida.symm.trans this) hab
  have hcount : selectedCount (pre ++ post) = 1 := by
    have h1 := selectedCount_map_select tabs b
    rw [countP_hasId_eq_one hd hb, hl] at h1
    simp only [selectedCount, List.countP_append, List.countP_cons, hta,
      Bool.false_eq_true, if_false] at h1 ⊢
    omega
  have hall : ∀ t ∈ pre ++ post, isSelected t = true →
      getProp t "selected" = .bool true ∧ getProp t "id" = b :=
    fun t ht hsel => selected_after_select hd hb (hsub t ht) hsel
  have hlen : (pre ++ post).length + 1 = tabs.length := by
    have := congrArg List.length hl
    simp only [List.length_map, List.length_append, List.length_cons] at this ⊢
    omega
  rw [hdestroy]
  refine ⟨by rw [hset], hlen, ?_, ?_, hcount, fun t ht hsel => (hall t ht hsel).2⟩
  · obtain ⟨t, ht, hsel⟩ := List.countP_pos_iff.1 (by
      show 0 < selectedCount (pre ++ post)
      omega)
    exact ⟨t, ht, (hall t ht hsel).2, (hall t ht hsel).1⟩
  · exact getSelected_of_unique (by omega) (fun t ht hsel => (hall t ht hsel).2)

/-- Witness for C19: the task "Work" is created with an empty tab list; two tabs
are added to it (ids 11 and 22 from the generator), the second is selected and
the first destroyed: one tab is left, and it is the selected one. -/
theorem C19_select_then_destroy_witness :
    (tasks.add World.initial (.str "Work") .undefined 3).1.tabState.tasks.map TaskObj.tabs
      = [[]] ∧
    idsOf (tabPrototype.add
      (tabPrototype.add [] (some [("url", .str "https://a.com")]) none 0 11).tabs
      none none 0 22).tabs = [.num 11, .num 22] ∧
    tabPrototype.count (selectThenDestroy (tabPrototype.add
      (tabPrototype.add [] (some [("url", .str "https://a.com")]) none 0 11).tabs
      none none 0 22).tabs (.num 11) (.num 22)) + 1 = 2 ∧
    tabPrototype.getSelected (selectThenDestroy (tabPrototype.add
      (tabPrototype.add [] (some [("url", .str "https://a.com")]) none 0 11).tabs
      none none 0 22).tabs (.num 11) (.num 22)) = .num 22 :=
  ⟨by decide, by decide,
    (C19_select_then_destroy (tabPrototype.add
      (tabPrototype.add [] (some [("url", .str "https://a.com")]) none 0 11).tabs
      none none 0 22).tabs (.num 11) (.num 22) (by decide) (by decide) (by decide)
      (by decide)).2.1,
    (C19_select_then_destroy (tabPrototype.add
      (tabPrototype.add [] (some [("url", .str "https://a.com")]) none 0 11).tabs
      none none 0 22).tabs (.num 11) (.num 22) (by decide) (by decide) (by decide)
      (by decide)).2.2.2.1⟩

/-- C19 (as stated) fails: in the list with the pairwise different ids `"1"`, `1`
and `2`, with `a = 2` and `b = 1`, `setSelected(1)` selects the tabs `"1"` and `1`,
which are `==`; after `destroy(2)` two tabs are selected and `getSelected()`
returns `"1"`, not `1`. -/
theorem C19_counterexample :
    (idsOf [[("id", .str "1")], [("id", .num 1)], [("id", .num 2)]]).Nodup ∧
    carriesId [[("id", .str "1")], [("id", .num 1)], [("id", .num 2)]] (.num 2) ∧
    carriesId [[("id", .str "1")], [("id", .num 1)], [("id", .num 2)]] (.num 1) ∧
    Val.num 2 ≠ Val.num 1 ∧
    selectedCount
      (selectThenDestroy [[("id", .str "1")], [("id", .num 1)], [("id", .num 2)]]
        (.num 2) (.num 1)) = 2 ∧
    tabPrototype.getSelected
      (selectThenDestroy [[("id", .str "1")], [("id", .num 1)], [("id", .num 2)]]
        (.num 2) (.num 1)) = .str "1" := by
  decide

/-! ## The selected task -/

theorem tasks_firstIndexFrom_some {id : Val} {l : List TaskObj} {i j : Nat}
    (h : tasks.firstIndexFrom id l i = some j) :
    ∃ pre r post, l = pre ++ r :: post ∧ j = i + pre.length ∧ looseEq r.id id = true := by
  induction l generalizing i with
  | nil => simp [tasks.firstIndexFrom] at h
  | cons a l ih =>
    unfold tasks.firstIndexFrom at h
    by_cases ha : looseEq a.id id = true
    · simp only [ha, if_true, Option.some.injEq] at h
      exact ⟨[], a, l, rfl, by simp [h], ha⟩
    · simp only [ha, if_false, Bool.false_eq_true] at h
      obtain ⟨pre, r, post, hl, hj, hr⟩ := ih h
      exact ⟨a :: pre, r, post, by simp [hl], by simp [hj]; omega, hr⟩

theorem tasks_setSelected_tabState (w : World) (id : Val) :
    (tasks.setSelected w id).1.tabState = { w.tabState with selectedTask := id } := by
  unfold tasks.setSelected
  simp only
  split <;> rfl

theorem selectedTaskExists_add {w : World} (h : selectedTaskExists w) (name id : Val)
    (random : Nat) : selectedTaskExists (tasks.add w name id random).1 := by
  rcases h with h | ⟨t, ht, hid⟩
  · exact Or.inl h
  · exact Or.inr ⟨t, by simp [tasks.add, ht], hid⟩

theorem selectedTaskExists_setSelected (w : World) (id : Val)
    (hg : ∃ t ∈ w.tabState.tasks, t.id = id) :
    selectedTaskExists (tasks.setSelected w id).1 := by
  unfold selectedTaskExists
  rw [tasks_setSelected_tabState]
  exact Or.inr hg

theorem selectedTaskExists_destroy {w : World} (h : selectedTaskExists w) (id : Val)
    (hg : looseEq w.tabState.selectedTask id = false) :
    selectedTaskExists (tasks.destroy w id).1 := by
  unfold tasks.destroy
  cases hf : tasks.firstIndexFrom id w.tabState.tasks 0 with
  | none => exact h
  | some i =>
    rcases h with h | ⟨t, ht, hid⟩
    · exact Or.inl h
    · obtain ⟨pre, r, post, hl, hj, hr⟩ := tasks_firstIndexFrom_some hf
      have hi : i = pre.length := by omega
      have htr : t ≠ r := by
        intro heq
        rw [← heq, hid, hg] at hr
        cases hr
      refine Or.inr ⟨t, ?_, hid⟩
      show t ∈ w.tabState.tasks.eraseIdx i
      rw [hl, hi, List.eraseIdx_append_of_length_le (le_refl _)]
      rw [hl] at ht
      simp only [Nat.sub_self, List.eraseIdx_cons_zero, List.mem_append, List.mem_cons] at ht ⊢
      rcases ht with h1 | h2 | h3
      · exact Or.inl h1
      · exact absurd h2 htr
      · exact Or.inr h3

/-- C17 (amended): in every store state reachable from the initial state by
`tasks.add`, by `tasks.setSelected(id)` with the id of a task of the store, and by
`tasks.destroy(id)` with an id that is not `==` to `selectedTask`, `selectedTask`
is `null` or the id of a task of the store. -/
theorem C17_selected_task_exists (w : World) (h : GuardedStoreReachable w) :
    selectedTaskExists w := by
  induction h with
  | initial => exact Or.inl rfl
  | add w name id random _ ih => exact selectedTaskExists_add ih name id random
  | setSelected w id _ hg _ => exact selectedTaskExists_setSelected w id hg
  | destroy w id _ hg ih => exact selectedTaskExists_destroy ih id hg

/-- Witness for C17: the task 1 is added and selected, the task 2 is added and
destroyed. -/
theorem C17_selected_task_exists_witness :
    selectedTaskExists
      (tasks.destroy
        (tasks.add
          (tasks.setSelected (tasks.add World.initial (.str "Work") (.num 1) 5).1 (.num 1)).1
          .undefined (.num 2) 6).1
        (.num 2)).1 :=
  C17_selected_task_exists _
    (.destroy _ (.num 2)
      (.add _ .undefined (.num 2) 6
        (.setSelected _ (.num 1) (.add _ (.str "Work") (.num 1) 5 .initial) (by decide)))
      (by decide))

/-- C17 (as stated) fails: after `tasks.add("Work", 1)`, `tasks.setSelected(1)`
and `tasks.destroy(1)` the store has no task and `selectedTask` is 1; and after
`tasks.setSelected(7)` in the initial state `selectedTask` is 7 and there is no
task. -/
theorem C17_counterexample :
    (StoreReachable
        (tasks.destroy
          (tasks.setSelected (tasks.add World.initial (.str "Work") (.num 1) 5).1 (.num 1)).1
          (.num 1)).1 ∧
      ¬ selectedTaskExists
        (tasks.destroy
          (tasks.setSelected (tasks.add World.initial (.str "Work") (.num 1) 5).1 (.num 1)).1
          (.num 1)).1) ∧
    (StoreReachable (tasks.setSelected World.initial (.num 7)).1 ∧
      ¬ selectedTaskExists (tasks.setSelected World.initial (.num 7)).1) :=
  ⟨⟨.destroy _ (.num 1) (.setSelected _ (.num 1) (.add _ (.str "Work") (.num 1) 5 .initial)),
      by decide⟩,
    ⟨.setSelected _ (.num 7) .initial, by decide⟩⟩

/-- C18: evaluation at the failing input.  In the initial state no task has the
id 7 and `tasks.get(7)` is `null`; `tasks.setSelected(7)` assigns `selectedTask`
and `currentTask` and then throws a `TypeError` on `currentTask.tabs`. -/
theorem C18_setSelected_absent_id_throws :
    tasks.get World.initial (.num 7) = .null ∧
    (tasks.setSelected World.initial (.num 7)).2 = .error .typeError ∧
    (tasks.setSelected World.initial (.num 7)).1.tabState.selectedTask = .num 7 ∧
    (tasks.setSelected World.initial (.num 7)).1.window.currentTask = some .null := by
  decide
